import Mathlib

/-!
Verification of the query-execution telemetry core of a PostgreSQL fork.

This development shallowly embeds, in Lean 4:

* the kernel-side collector state machine generated from
  `cmudb/tscout/markers.c` together with its prelude (`ou_key`,
  `metrics_accumulate`) and the probe helpers (`cpu_start`, `cpu_end`,
  `disk_start`, `disk_end`, `net_start`, `net_end`);
* the in-server QSS counter pipeline (`qss_ExecutorStart`,
  `qss_ExecutorEnd`, `qss_AllocInstrumentation`, `IndexLookup`) and the
  counter-block helper macros from `cmudb/tscout/executors.h`.

Machine integers are modelled as `Nat` (for the unsigned 64-bit values,
with explicit `% 2 ^ 64` where C arithmetic can wrap) and `Int` (for the
signed 32-bit plan-node ids).  BPF hash maps are modelled as total
functions into `Option`; map capacity limits are not modelled (the
properties below are about single-key protocols well under the capacity).
-/

/-! ## u64 arithmetic helpers -/

/-- The modulus of 64-bit unsigned arithmetic. -/
def U64 : Nat := 2 ^ 64

/-- C unsigned 64-bit subtraction `a - b` (wrap-around), for `a b < 2^64`. -/
def sub64 (a b : Nat) : Nat := (U64 + a - b) % U64

/-- C unsigned 64-bit addition `a + b` (wrap-around). -/
def add64 (a b : Nat) : Nat := (a + b) % U64

/-- Sign extension of a signed 32-bit value to an unsigned 64-bit value, as
performed by C's integer conversions when a `s32` meets a `u64` operand. -/
def s32ToU64 (i : Int) : Nat := (i % (2 ^ 64 : Int)).toNat

/-- The collector prelude's key packing:
`static u64 ou_key(const u32 ou, const s32 ou_instance) \x7b return ((u64)ou) << 32 | ou_instance; \x7d`.
The `s32` operand is sign-extended to 64 bits before the bitwise or. -/
def ou_key (ou : Nat) (ou_instance : Int) : Nat :=
  (ou % 2 ^ 32) * 2 ^ 32 ||| s32ToU64 ou_instance

/-! ## Resource metrics (struct resource_metrics, SUBST_METRICS fields) -/

/-- The metrics struct shared by every OU (`struct resource_metrics`). All
fields are unsigned 64-bit counters except `cpu_id` (u32) and `pid`;
both are modelled as `Nat` as well. -/
@[ext] structure ResourceMetrics where
  start_time : Nat
  end_time : Nat
  elapsed_us : Nat
  cpu_cycles : Nat
  instructions : Nat
  cache_references : Nat
  cache_misses : Nat
  ref_cpu_cycles : Nat
  disk_bytes_read : Nat
  disk_bytes_written : Nat
  network_bytes_read : Nat
  network_bytes_written : Nat
  cpu_id : Nat
  pid : Nat
deriving DecidableEq

/-- `struct resource_metrics metrics = \x7b\x7d;` — the zero-initialized struct. -/
def zeroMetrics : ResourceMetrics :=
  { start_time := 0, end_time := 0, elapsed_us := 0, cpu_cycles := 0, instructions := 0
    cache_references := 0, cache_misses := 0, ref_cpu_cycles := 0, disk_bytes_read := 0
    disk_bytes_written := 0, network_bytes_read := 0, network_bytes_written := 0
    cpu_id := 0, pid := 0 }

/-! ## Probe helpers (the common probes file: cpu/disk/net start and end) -/

/-- A `struct bpf_perf_event_value` as read by `perf_counter_value`. -/
structure PerfEventValue where
  counter : Nat
  enabled : Nat
  running : Nat
deriving DecidableEq

/-- `NormalizedPerfEventValue`: `counter * enabled / running` in u64
arithmetic (the product wraps at 2^64; BPF division by zero yields 0,
which `Nat` division also does). -/
def NormalizedPerfEventValue (v : PerfEventValue) : Nat :=
  v.counter * v.enabled % U64 / v.running

/-- The perf-counter readings available on the executing CPU at one probe
firing.  A `none` models `perf_counter_value` returning a negative error
code for that counter. `cpu_k` is `bpf_get_smp_processor_id()`. -/
structure CpuEnv where
  cpu_cycles : Option PerfEventValue
  instructions : Option PerfEventValue
  cache_references : Option PerfEventValue
  cache_misses : Option PerfEventValue
  ref_cpu_cycles : Option PerfEventValue
  cpu_k : Nat
deriving DecidableEq

/-- `cpu_start`: read the five counters; on any read error return failure
(the partially written local struct is discarded by the caller). -/
def cpu_start (env : CpuEnv) (m : ResourceMetrics) : Option ResourceMetrics :=
  match env.cpu_cycles, env.instructions, env.cache_references,
        env.cache_misses, env.ref_cpu_cycles with
  | some a, some b, some c, some d, some e =>
    some { m with
            cpu_cycles := NormalizedPerfEventValue a
            instructions := NormalizedPerfEventValue b
            cache_references := NormalizedPerfEventValue c
            cache_misses := NormalizedPerfEventValue d
            ref_cpu_cycles := NormalizedPerfEventValue e }
  | _, _, _, _, _ => none

/-- One counter's step inside `cpu_end`: fail on read error, fail when the
normalized end value is below the stored snapshot, otherwise produce the
delta `end_value - snapshot`. -/
def counterDelta (r : Option PerfEventValue) (snap : Nat) : Option Nat :=
  match r with
  | none => none
  | some v =>
    let e := NormalizedPerfEventValue v
    if snap > e then none else some (e - snap)

/-- `cpu_end`: read the five counters again, replace each snapshot by its
delta, failing on a read error or on any counter that moved backward;
finally record the executing CPU id. -/
def cpu_end (env : CpuEnv) (m : ResourceMetrics) : Option ResourceMetrics :=
  match counterDelta env.cpu_cycles m.cpu_cycles,
        counterDelta env.instructions m.instructions,
        counterDelta env.cache_references m.cache_references,
        counterDelta env.cache_misses m.cache_misses,
        counterDelta env.ref_cpu_cycles m.ref_cpu_cycles with
  | some d1, some d2, some d3, some d4, some d5 =>
    some { m with
            cpu_cycles := d1, instructions := d2, cache_references := d3
            cache_misses := d4, ref_cpu_cycles := d5, cpu_id := env.cpu_k }
  | _, _, _, _, _ => none

/-- Everything the kernel environment supplies to one BEGIN or END probe
firing: perf readings, the task's I/O accounting fields, the client
socket's TCP fields, and the nanosecond monotonic clock. -/
structure ProbeEnv where
  cpu : CpuEnv
  task_read_bytes : Nat
  task_write_bytes : Nat
  sock_copied_seq : Nat
  sock_bytes_sent : Nat
  time_ns : Nat
deriving DecidableEq

/-- `disk_start`: snapshot the task's process-wide I/O byte counters. -/
def disk_start (env : ProbeEnv) (m : ResourceMetrics) : ResourceMetrics :=
  { m with disk_bytes_read := env.task_read_bytes
           disk_bytes_written := env.task_write_bytes }

/-- `net_start`: snapshot the client socket's TCP counters (only compiled
in when `CLIENT_SOCKET_FD` is defined for the OU). -/
def net_start (env : ProbeEnv) (m : ResourceMetrics) : ResourceMetrics :=
  { m with network_bytes_read := env.sock_copied_seq
           network_bytes_written := env.sock_bytes_sent }

/-- `disk_end`: replace the snapshots by u64 deltas (no backward check). -/
def disk_end (env : ProbeEnv) (m : ResourceMetrics) : ResourceMetrics :=
  { m with disk_bytes_read := sub64 env.task_read_bytes m.disk_bytes_read
           disk_bytes_written := sub64 env.task_write_bytes m.disk_bytes_written }

/-- `net_end`: replace the snapshots by u64 deltas (no backward check). -/
def net_end (env : ProbeEnv) (m : ResourceMetrics) : ResourceMetrics :=
  { m with network_bytes_read := sub64 env.sock_copied_seq m.network_bytes_read
           network_bytes_written := sub64 env.sock_bytes_sent m.network_bytes_written }

/-- `metrics_accumulate` from the collector prelude.  The C body keeps
`start_time` and `cpu_id` of the accumulated entry and always overwrites
`end_time`; the remaining statements are the template hole
`SUBST_ACCUMULATE`.  Modelled from the spec: the coordinator's code
generator (not part of these sources) expands `SUBST_ACCUMULATE` to
`lhs->f += rhs->f` for every other metric field; u64 addition wraps. -/
def metrics_accumulate (lhs rhs : ResourceMetrics) : ResourceMetrics :=
  { start_time := lhs.start_time
    cpu_id := lhs.cpu_id
    end_time := rhs.end_time
    elapsed_us := add64 lhs.elapsed_us rhs.elapsed_us
    cpu_cycles := add64 lhs.cpu_cycles rhs.cpu_cycles
    instructions := add64 lhs.instructions rhs.instructions
    cache_references := add64 lhs.cache_references rhs.cache_references
    cache_misses := add64 lhs.cache_misses rhs.cache_misses
    ref_cpu_cycles := add64 lhs.ref_cpu_cycles rhs.ref_cpu_cycles
    disk_bytes_read := add64 lhs.disk_bytes_read rhs.disk_bytes_read
    disk_bytes_written := add64 lhs.disk_bytes_written rhs.disk_bytes_written
    network_bytes_read := add64 lhs.network_bytes_read rhs.network_bytes_read
    network_bytes_written := add64 lhs.network_bytes_written rhs.network_bytes_written
    pid := add64 lhs.pid rhs.pid }

/-! ## The per-OU collector state machine (markers.c) -/

/-- Static configuration of one generated OU program: its `SUBST_INDEX`
(a u32) and whether `CLIENT_SOCKET_FD` is defined for it. -/
structure OuConfig where
  index : Nat
  hasClientSocket : Bool
deriving DecidableEq

/-- The three BPF maps of one OU program.  `features` is
`SUBST_OU_complete_features` (keyed by the s32 `ou_instance` alone, the
payload is opaque and modelled as a `Nat`); `complete_metrics` and
`running_metrics` are keyed by the packed 64-bit `ou_key`. -/
structure CollectorState where
  features : Int → Option Nat
  complete_metrics : Nat → Option ResourceMetrics
  running_metrics : Nat → Option ResourceMetrics

/-- BPF map `update` (insert or overwrite). -/
def mapUpdate {α β : Type} [DecidableEq α] (m : α → Option β) (k : α) (v : β) :
    α → Option β :=
  fun k' => if k' = k then some v else m k'

/-- BPF map `delete`. -/
def mapDelete {α β : Type} [DecidableEq α] (m : α → Option β) (k : α) :
    α → Option β :=
  fun k' => if k' = k then none else m k'

/-- All maps empty: the collector's state right after attach. -/
def collectorInit : CollectorState :=
  { features := fun _ => none
    complete_metrics := fun _ => none
    running_metrics := fun _ => none }

/-- `SUBST_OU_reset`: delete this key's entries from all three maps. -/
def ou_reset (cfg : OuConfig) (s : CollectorState) (ou_instance : Int) :
    CollectorState :=
  { features := mapDelete s.features ou_instance
    complete_metrics := mapDelete s.complete_metrics (ou_key cfg.index ou_instance)
    running_metrics := mapDelete s.running_metrics (ou_key cfg.index ou_instance) }

/-- The metrics struct built by the body of `SUBST_OU_begin`: zero
initialization, `cpu_start`, `disk_start`, conditional `net_start`, then
the start-time stamp (nanoseconds shifted right by 10).  `none` models the
perf read failure branch. -/
def beginSnapshot (cfg : OuConfig) (env : ProbeEnv) : Option ResourceMetrics :=
  match cpu_start env.cpu zeroMetrics with
  | none => none
  | some m0 =>
    let m1 := disk_start env m0
    let m2 := if cfg.hasClientSocket then net_start env m1 else m1
    some { m2 with start_time := env.time_ns >>> 10 }

/-- `SUBST_OU_begin`: build the snapshot and store it in
`running_metrics`; on a perf read failure, reset the key. -/
def ou_begin (cfg : OuConfig) (s : CollectorState) (ou_instance : Int)
    (env : ProbeEnv) : CollectorState :=
  match beginSnapshot cfg env with
  | none => ou_reset cfg s ou_instance
  | some m3 =>
    { s with running_metrics :=
        mapUpdate s.running_metrics (ou_key cfg.index ou_instance) m3 }

/-- The in-place transformation the body of `SUBST_OU_end` applies to the
running snapshot `m0`: stamp `end_time` and `elapsed_us`, turn the perf
snapshots into deltas via `cpu_end` (failing on a read error or a backward
counter), then `disk_end` and conditionally `net_end`. -/
def endFinish (cfg : OuConfig) (env : ProbeEnv) (m0 : ResourceMetrics) :
    Option ResourceMetrics :=
  match cpu_end env.cpu
      { m0 with end_time := env.time_ns >>> 10
                elapsed_us := sub64 (env.time_ns >>> 10) m0.start_time } with
  | none => none
  | some m2 =>
    let m3 := disk_end env m2
    some (if cfg.hasClientSocket then net_end env m3 else m3)

/-- `SUBST_OU_end`: look up the running snapshot (reset if absent), finish
it (reset on a read failure or a backward counter), then move the finished
metrics into `complete_metrics` — accumulating into an existing entry —
and delete the running entry. -/
def ou_end (cfg : OuConfig) (s : CollectorState) (ou_instance : Int)
    (env : ProbeEnv) : CollectorState :=
  match s.running_metrics (ou_key cfg.index ou_instance) with
  | none => ou_reset cfg s ou_instance
  | some m0 =>
    match endFinish cfg env m0 with
    | none => ou_reset cfg s ou_instance
    | some m4 =>
      { s with
          complete_metrics :=
            match s.complete_metrics (ou_key cfg.index ou_instance) with
            | none => mapUpdate s.complete_metrics (ou_key cfg.index ou_instance) m4
            | some acc =>
              mapUpdate s.complete_metrics (ou_key cfg.index ou_instance)
                (metrics_accumulate acc m4)
          running_metrics :=
            mapDelete s.running_metrics (ou_key cfg.index ou_instance) }

/-- `SUBST_OU_features`: scratch-copy the payload and store it, keyed by
the instance id alone, unconditionally.  (The scratch-array lookup cannot
fail for a size-1 BPF array; that branch is unreachable.) -/
def ou_features (s : CollectorState) (ou_instance : Int) (payload : Nat) :
    CollectorState :=
  { s with features := mapUpdate s.features ou_instance payload }

/-- One record published on the per-OU ring `collector_results_<INDEX>`:
`u32 ou_index`, the feature struct, the metrics struct.  The `pid` slot of
the metrics section is filled from `bpf_get_current_pid_tgid()` at FLUSH. -/
structure OuOutput where
  ou_index : Nat
  features : Nat
  metrics : ResourceMetrics
deriving DecidableEq

/-- `SUBST_OU_flush`: if the features or the completed metrics are absent,
reset and publish nothing; otherwise assemble the output record, publish
it, and reset the key. -/
def ou_flush (cfg : OuConfig) (s : CollectorState) (ou_instance : Int)
    (pid : Nat) : CollectorState × Option OuOutput :=
  match s.features ou_instance with
  | none => (ou_reset cfg s ou_instance, none)
  | some f =>
    match s.complete_metrics (ou_key cfg.index ou_instance) with
    | none => (ou_reset cfg s ou_instance, none)
    | some m =>
      (ou_reset cfg s ou_instance,
       some { ou_index := cfg.index, features := f, metrics := { m with pid := pid } })

/-- One marker firing delivered to the OU program, together with the
kernel environment it observes. -/
inductive MarkerEvent where
  | ouBegin (ou_instance : Int) (env : ProbeEnv)
  | ouEnd (ou_instance : Int) (env : ProbeEnv)
  | ouFeatures (ou_instance : Int) (payload : Nat)
  | ouFlush (ou_instance : Int) (pid : Nat)
deriving DecidableEq

/-- Dispatch one marker event; FLUSH may publish a record. -/
def collectorStep (cfg : OuConfig) (s : CollectorState) :
    MarkerEvent → CollectorState × Option OuOutput
  | .ouBegin i env => (ou_begin cfg s i env, none)
  | .ouEnd i env => (ou_end cfg s i env, none)
  | .ouFeatures i p => (ou_features s i p, none)
  | .ouFlush i pid => ou_flush cfg s i pid

/-- Run a sequence of marker events, collecting the published records in
order. -/
def collectorRun (cfg : OuConfig) (s : CollectorState) :
    List MarkerEvent → CollectorState × List OuOutput
  | [] => (s, [])
  | e :: es =>
    let r := collectorStep cfg s e
    let rest := collectorRun cfg r.1 es
    (rest.1, r.2.toList ++ rest.2)

/-! ## C5: the packed 64-bit collector state key -/

/-- For a u32 `ou` and a non-negative s32 instance id, the packed key is the
plain base-2^32 digit pair. -/
theorem ou_key_nonneg_eq (ou : Nat) (i : Int) (hou : ou < 2 ^ 32)
    (h0 : 0 ≤ i) (h1 : i < 2 ^ 31) :
    ou_key ou i = 2 ^ 32 * ou + i.toNat := by
  have hlo : i.toNat < 2 ^ 32 := by omega
  have hs : s32ToU64 i = i.toNat := by
    unfold s32ToU64
    rw [Int.emod_eq_of_lt h0 (by omega)]
  unfold ou_key
  rw [hs, Nat.mod_eq_of_lt hou, Nat.mul_comm, ← Nat.mul_add_lt_is_or hlo ou]

/-- C5 counterexample: the packing is not injective once the reserved
negative plan-node ids are included.  The s32 instance id is sign-extended
to 64 bits before the bitwise or, so for `plan_node_id = -1` (INVALID) the
low operand already has all upper 32 bits set and every `ou_index`
collapses to the same key. -/
theorem C5_ou_key_counterexample :
    ou_key 0 (-1) = ou_key 1 (-1) ∧ (0 : Nat) ≠ 1 := by
  constructor
  · decide
  · decide

/-- C5 (amended): on pairs with a non-negative plan-node id (and a genuine
u32 `ou_index`) the packing is injective, and both components are
recoverable from the key by division and remainder by 2^32; for the
reserved negative ids the sign extension makes distinct `ou_index` values
collide (see the counterexample). -/
theorem C5_ou_key_packing (ou1 ou2 : Nat) (i1 i2 : Int)
    (hou1 : ou1 < 2 ^ 32) (hou2 : ou2 < 2 ^ 32)
    (hi1 : 0 ≤ i1) (hi1' : i1 < 2 ^ 31) (hi2 : 0 ≤ i2) (hi2' : i2 < 2 ^ 31) :
    (ou_key ou1 i1 = ou_key ou2 i2 ↔ ou1 = ou2 ∧ i1 = i2) ∧
    ou_key ou1 i1 / 2 ^ 32 = ou1 ∧
    ou_key ou1 i1 % 2 ^ 32 = i1.toNat := by
  rw [ou_key_nonneg_eq ou1 i1 hou1 hi1 hi1', ou_key_nonneg_eq ou2 i2 hou2 hi2 hi2']
  refine ⟨⟨fun h => by constructor <;> omega, fun h => by rw [h.1, h.2]⟩, by omega, by omega⟩

/-- Witness for `C5_ou_key_packing` at `ou = 3`, `plan_node_id = 7`. -/
theorem C5_ou_key_packing_witness :
    (ou_key 3 7 = ou_key 3 7 ↔ 3 = 3 ∧ (7 : Int) = 7) ∧
    ou_key 3 7 / 2 ^ 32 = 3 ∧ ou_key 3 7 % 2 ^ 32 = (7 : Int).toNat :=
  C5_ou_key_packing 3 3 7 7 (by decide) (by decide) (by decide) (by decide)
    (by decide) (by decide)

/-! ## C3: FLUSH behaviour -/

/-- A sample OU configuration used by concrete witnesses. -/
def sampleCfg : OuConfig := { index := 2, hasClientSocket := false }

/-- A state whose key `(2, 5)` has both a stored feature payload and a
completed-metrics entry; used by concrete witnesses. -/
def sampleReadyState : CollectorState :=
  { features := mapUpdate collectorInit.features 5 42
    complete_metrics := mapUpdate collectorInit.complete_metrics (ou_key 2 5) zeroMetrics
    running_metrics := fun _ => none }

/-- C3: on FLUSH, a missing feature payload or a missing completed-metrics
entry resets the key and publishes nothing; when both are present exactly
one output record (ou index, features, metrics with the current pid) is
published and the key is then reset; in every case, after the FLUSH none
of the three maps contains the key. -/
theorem C3_flush_behavior (cfg : OuConfig) (s : CollectorState) (i : Int)
    (pid : Nat) :
    (s.features i = none → ou_flush cfg s i pid = (ou_reset cfg s i, none)) ∧
    (∀ f, s.features i = some f →
      s.complete_metrics (ou_key cfg.index i) = none →
      ou_flush cfg s i pid = (ou_reset cfg s i, none)) ∧
    (∀ f m, s.features i = some f →
      s.complete_metrics (ou_key cfg.index i) = some m →
      ou_flush cfg s i pid =
        (ou_reset cfg s i,
         some { ou_index := cfg.index, features := f,
                metrics := { m with pid := pid } })) ∧
    ((ou_flush cfg s i pid).1.features i = none ∧
     (ou_flush cfg s i pid).1.complete_metrics (ou_key cfg.index i) = none ∧
     (ou_flush cfg s i pid).1.running_metrics (ou_key cfg.index i) = none) := by
  have hreset : ∀ s' : CollectorState,
      (ou_reset cfg s' i).features i = none ∧
      (ou_reset cfg s' i).complete_metrics (ou_key cfg.index i) = none ∧
      (ou_reset cfg s' i).running_metrics (ou_key cfg.index i) = none := by
    intro s'
    refine ⟨?_, ?_, ?_⟩ <;> simp [ou_reset, mapDelete]
  refine ⟨?_, ?_, ?_, ?_⟩
  · intro h
    simp [ou_flush, h]
  · intro f hf hm
    simp [ou_flush, hf, hm]
  · intro f m hf hm
    simp [ou_flush, hf, hm]
  · have hfst : (ou_flush cfg s i pid).1 = ou_reset cfg s i := by
      cases hf : s.features i with
      | none => simp [ou_flush, hf]
      | some f =>
        cases hm : s.complete_metrics (ou_key cfg.index i) with
        | none => simp [ou_flush, hf, hm]
        | some m => simp [ou_flush, hf, hm]
    rw [hfst]
    exact hreset s

/-- Witness for `C3_flush_behavior`: the empty state resets and publishes
nothing; a state holding features and completed metrics for key `(2, 5)`
publishes exactly the assembled record. -/
theorem C3_flush_behavior_witness :
    ou_flush sampleCfg collectorInit 5 9 = (ou_reset sampleCfg collectorInit 5, none) ∧
    ou_flush sampleCfg sampleReadyState 5 9 =
      (ou_reset sampleCfg sampleReadyState 5,
       some { ou_index := 2, features := 42,
              metrics := { zeroMetrics with pid := 9 } }) :=
  ⟨(C3_flush_behavior sampleCfg collectorInit 5 9).1 rfl,
   (C3_flush_behavior sampleCfg sampleReadyState 5 9).2.2.1 42 zeroMetrics
     (by simp [sampleReadyState, mapUpdate])
     (by simp [sampleReadyState, sampleCfg, mapUpdate])⟩

/-! ## C4: FEATURES without BEGIN -/

/-- C4 counterexample: a FEATURES event arriving for instance id 7 in the
empty collector state (no BEGIN outstanding, no completed metrics) is NOT
discarded: the generated `SUBST_OU_features` handler stores the payload
unconditionally, so the payload is retained in the OU's features map and
no reset takes place (the other maps are untouched). -/
theorem C4_features_counterexample :
    (ou_features collectorInit 7 99).features 7 = some 99 ∧
    (ou_features collectorInit 7 99).complete_metrics =
      collectorInit.complete_metrics ∧
    (ou_features collectorInit 7 99).running_metrics =
      collectorInit.running_metrics := by
  refine ⟨?_, rfl, rfl⟩
  simp [ou_features, collectorInit, mapUpdate]

/-- C4 (amended): a FEATURES event stores its payload in the features map
unconditionally, even with no BEGIN outstanding and no completed metrics,
and leaves the other two maps untouched; the protocol violation is only
detected at the next FLUSH for that key, which — the completed metrics
being absent — resets the key (removing the stale payload from the
features map) and publishes nothing. -/
theorem C4_features_retained (cfg : OuConfig) (s s' : CollectorState)
    (i : Int) (p pid : Nat) :
    ((ou_features s i p).features i = some p ∧
     (ou_features s i p).complete_metrics = s.complete_metrics ∧
     (ou_features s i p).running_metrics = s.running_metrics) ∧
    (s'.complete_metrics (ou_key cfg.index i) = none →
      (ou_flush cfg s' i pid).2 = none ∧
      (ou_flush cfg s' i pid).1.features i = none) := by
  constructor
  · exact ⟨by simp [ou_features, mapUpdate], rfl, rfl⟩
  · intro hm
    cases hf : s'.features i with
    | none => simp [ou_flush, hf, ou_reset, mapDelete]
    | some f => simp [ou_flush, hf, hm, ou_reset, mapDelete]

/-- Witness for `C4_features_retained` on the empty state at key `(2, 7)`. -/
theorem C4_features_retained_witness :
    (((ou_features collectorInit 7 99).features 7 = some 99 ∧
      (ou_features collectorInit 7 99).complete_metrics =
        collectorInit.complete_metrics ∧
      (ou_features collectorInit 7 99).running_metrics =
        collectorInit.running_metrics)) ∧
    ((ou_flush sampleCfg (ou_features collectorInit 7 99) 7 3).2 = none ∧
     (ou_flush sampleCfg (ou_features collectorInit 7 99) 7 3).1.features 7 = none) :=
  ⟨(C4_features_retained sampleCfg collectorInit (ou_features collectorInit 7 99) 7 99 3).1,
   (C4_features_retained sampleCfg collectorInit (ou_features collectorInit 7 99) 7 99 3).2 rfl⟩

/-! ## C2: END-event guards and soundness of emitted records -/

/-- The END-side probe helpers do not modify the timestamps or the pid:
`disk_end` and `net_end` only rewrite the byte counters. -/
theorem disk_end_times (env : ProbeEnv) (m : ResourceMetrics) :
    (disk_end env m).start_time = m.start_time ∧
    (disk_end env m).end_time = m.end_time := ⟨rfl, rfl⟩

theorem net_end_times (env : ProbeEnv) (m : ResourceMetrics) :
    (net_end env m).start_time = m.start_time ∧
    (net_end env m).end_time = m.end_time := ⟨rfl, rfl⟩

/-- A successful `cpu_end` only rewrites the five perf counters and the
CPU id; the timestamps survive. -/
theorem cpu_end_times {env : CpuEnv} {m m' : ResourceMetrics}
    (h : cpu_end env m = some m') :
    m'.start_time = m.start_time ∧ m'.end_time = m.end_time := by
  unfold cpu_end at h
  rcases e1 : counterDelta env.cpu_cycles m.cpu_cycles with _ | d1 <;>
    rcases e2 : counterDelta env.instructions m.instructions with _ | d2 <;>
    rcases e3 : counterDelta env.cache_references m.cache_references with _ | d3 <;>
    rcases e4 : counterDelta env.cache_misses m.cache_misses with _ | d4 <;>
    rcases e5 : counterDelta env.ref_cpu_cycles m.ref_cpu_cycles with _ | d5 <;>
    rw [e1, e2, e3, e4, e5] at h <;> cases h
  exact ⟨rfl, rfl⟩

/-- If some normalized end reading sits below its stored snapshot, the
corresponding `counterDelta` refuses. -/
theorem counterDelta_eq_none {r : Option PerfEventValue} {snap : Nat}
    (h : ∃ v, r = some v ∧ NormalizedPerfEventValue v < snap) :
    counterDelta r snap = none := by
  rcases h with ⟨v, rfl, hv⟩
  simp [counterDelta, hv]

/-- If any of the five counters moved backward, `cpu_end` fails. -/
theorem cpu_end_eq_none_of_backward (env : CpuEnv) (m : ResourceMetrics)
    (h : (∃ v, env.cpu_cycles = some v ∧ NormalizedPerfEventValue v < m.cpu_cycles) ∨
         (∃ v, env.instructions = some v ∧ NormalizedPerfEventValue v < m.instructions) ∨
         (∃ v, env.cache_references = some v ∧ NormalizedPerfEventValue v < m.cache_references) ∨
         (∃ v, env.cache_misses = some v ∧ NormalizedPerfEventValue v < m.cache_misses) ∨
         (∃ v, env.ref_cpu_cycles = some v ∧ NormalizedPerfEventValue v < m.ref_cpu_cycles)) :
    cpu_end env m = none := by
  have hnone : counterDelta env.cpu_cycles m.cpu_cycles = none ∨
      counterDelta env.instructions m.instructions = none ∨
      counterDelta env.cache_references m.cache_references = none ∨
      counterDelta env.cache_misses m.cache_misses = none ∨
      counterDelta env.ref_cpu_cycles m.ref_cpu_cycles = none := by
    rcases h with h | h | h | h | h
    · exact Or.inl (counterDelta_eq_none h)
    · exact Or.inr (Or.inl (counterDelta_eq_none h))
    · exact Or.inr (Or.inr (Or.inl (counterDelta_eq_none h)))
    · exact Or.inr (Or.inr (Or.inr (Or.inl (counterDelta_eq_none h))))
    · exact Or.inr (Or.inr (Or.inr (Or.inr (counterDelta_eq_none h))))
  unfold cpu_end
  rcases e1 : counterDelta env.cpu_cycles m.cpu_cycles with _ | d1 <;>
    rcases e2 : counterDelta env.instructions m.instructions with _ | d2 <;>
    rcases e3 : counterDelta env.cache_references m.cache_references with _ | d3 <;>
    rcases e4 : counterDelta env.cache_misses m.cache_misses with _ | d4 <;>
    rcases e5 : counterDelta env.ref_cpu_cycles m.ref_cpu_cycles with _ | d5 <;>
    simp_all

/-- The observation time of a marker event (the monotonic clock is read
only by BEGIN and END probes). -/
def eventTime : MarkerEvent → Option Nat
  | .ouBegin _ env => some env.time_ns
  | .ouEnd _ env => some env.time_ns
  | .ouFeatures _ _ => none
  | .ouFlush _ _ => none

/-- The clock readings of a trace, in program order. -/
def timesOf (tr : List MarkerEvent) : List Nat := tr.filterMap eventTime

/-- Boolean check that a list of clock readings is non-decreasing — the
guarantee `bpf_ktime_get_ns` gives within one backend's program order. -/
def nondecrB : List Nat → Bool
  | [] => true
  | [_] => true
  | a :: b :: rest => Nat.ble a b && nondecrB (b :: rest)

/-- Invariant tying map contents to the clock: every running snapshot was
stamped no later than `t`, every completed entry has ordered timestamps no
later than `t` (times are stored right-shifted by 10). -/
def MetricsInv (s : CollectorState) (t : Nat) : Prop :=
  (∀ k m, s.running_metrics k = some m → m.start_time ≤ t >>> 10) ∧
  (∀ k m, s.complete_metrics k = some m →
    m.start_time ≤ m.end_time ∧ m.end_time ≤ t >>> 10)

theorem MetricsInv.mono {s : CollectorState} {t t' : Nat}
    (h : MetricsInv s t) (ht : t ≤ t') : MetricsInv s t' := by
  have hsh : t >>> 10 ≤ t' >>> 10 := by
    simp only [Nat.shiftRight_eq_div_pow]
    exact Nat.div_le_div_right ht
  exact ⟨fun k m hm => le_trans (h.1 k m hm) hsh,
         fun k m hm => ⟨(h.2 k m hm).1, le_trans (h.2 k m hm).2 hsh⟩⟩

theorem metricsInv_reset {s : CollectorState} {t : Nat} (cfg : OuConfig)
    (i : Int) (h : MetricsInv s t) : MetricsInv (ou_reset cfg s i) t := by
  constructor
  · intro k m hm
    by_cases hk : k = ou_key cfg.index i
    · simp [ou_reset, mapDelete, hk] at hm
    · simp [ou_reset, mapDelete, hk] at hm
      exact h.1 k m hm
  · intro k m hm
    by_cases hk : k = ou_key cfg.index i
    · simp [ou_reset, mapDelete, hk] at hm
    · simp [ou_reset, mapDelete, hk] at hm
      exact h.2 k m hm

theorem metricsInv_init (t : Nat) : MetricsInv collectorInit t := by
  constructor <;> intro k m hm <;> simp [collectorInit] at hm


/-! Step equations for the BEGIN and END handlers. -/

theorem ou_begin_eq_reset (cfg : OuConfig) (s : CollectorState) (i : Int)
    (env : ProbeEnv) (h : beginSnapshot cfg env = none) :
    ou_begin cfg s i env = ou_reset cfg s i := by
  simp [ou_begin, h]

theorem ou_begin_eq_update (cfg : OuConfig) (s : CollectorState) (i : Int)
    (env : ProbeEnv) (m3 : ResourceMetrics) (h : beginSnapshot cfg env = some m3) :
    ou_begin cfg s i env =
      { s with running_metrics :=
          mapUpdate s.running_metrics (ou_key cfg.index i) m3 } := by
  simp [ou_begin, h]

theorem ou_end_eq_reset_noRunning (cfg : OuConfig) (s : CollectorState) (i : Int)
    (env : ProbeEnv) (h : s.running_metrics (ou_key cfg.index i) = none) :
    ou_end cfg s i env = ou_reset cfg s i := by
  simp [ou_end, h]

theorem ou_end_eq_reset_fail (cfg : OuConfig) (s : CollectorState) (i : Int)
    (env : ProbeEnv) (m0 : ResourceMetrics)
    (h1 : s.running_metrics (ou_key cfg.index i) = some m0)
    (h2 : endFinish cfg env m0 = none) :
    ou_end cfg s i env = ou_reset cfg s i := by
  simp [ou_end, h1, h2]

theorem ou_end_eq_move (cfg : OuConfig) (s : CollectorState) (i : Int)
    (env : ProbeEnv) (m0 m4 : ResourceMetrics)
    (h1 : s.running_metrics (ou_key cfg.index i) = some m0)
    (h2 : endFinish cfg env m0 = some m4)
    (h3 : s.complete_metrics (ou_key cfg.index i) = none) :
    ou_end cfg s i env =
      { s with
          complete_metrics := mapUpdate s.complete_metrics (ou_key cfg.index i) m4
          running_metrics := mapDelete s.running_metrics (ou_key cfg.index i) } := by
  simp [ou_end, h1, h2, h3]

theorem ou_end_eq_accum (cfg : OuConfig) (s : CollectorState) (i : Int)
    (env : ProbeEnv) (m0 m4 acc : ResourceMetrics)
    (h1 : s.running_metrics (ou_key cfg.index i) = some m0)
    (h2 : endFinish cfg env m0 = some m4)
    (h3 : s.complete_metrics (ou_key cfg.index i) = some acc) :
    ou_end cfg s i env =
      { s with
          complete_metrics :=
            mapUpdate s.complete_metrics (ou_key cfg.index i)
              (metrics_accumulate acc m4)
          running_metrics := mapDelete s.running_metrics (ou_key cfg.index i) } := by
  simp [ou_end, h1, h2, h3]

theorem endFinish_eq_none (cfg : OuConfig) (env : ProbeEnv) (m0 : ResourceMetrics)
    (h : cpu_end env.cpu
        { m0 with end_time := env.time_ns >>> 10
                  elapsed_us := sub64 (env.time_ns >>> 10) m0.start_time } = none) :
    endFinish cfg env m0 = none := by
  simp [endFinish, h]

theorem beginSnapshot_start_time {cfg : OuConfig} {env : ProbeEnv}
    {m3 : ResourceMetrics} (h : beginSnapshot cfg env = some m3) :
    m3.start_time = env.time_ns >>> 10 := by
  unfold beginSnapshot at h
  cases hc : cpu_start env.cpu zeroMetrics <;> rw [hc] at h
  · cases h
  · cases h
    rfl

theorem endFinish_times {cfg : OuConfig} {env : ProbeEnv}
    {m0 m4 : ResourceMetrics} (h : endFinish cfg env m0 = some m4) :
    m4.start_time = m0.start_time ∧ m4.end_time = env.time_ns >>> 10 := by
  unfold endFinish at h
  cases hc : cpu_end env.cpu
      { m0 with end_time := env.time_ns >>> 10
                elapsed_us := sub64 (env.time_ns >>> 10) m0.start_time } <;>
    rw [hc] at h
  · cases h
  · cases h
    have ht := cpu_end_times hc
    cases hs : cfg.hasClientSocket <;>
      simp [hs, disk_end, net_end, ht.1, ht.2]

theorem metricsInv_begin {s : CollectorState} {t : Nat} (cfg : OuConfig)
    (i : Int) (env : ProbeEnv) (h : MetricsInv s t) (ht : t ≤ env.time_ns) :
    MetricsInv (ou_begin cfg s i env) env.time_ns := by
  have h' := h.mono ht
  cases hc : beginSnapshot cfg env with
  | none =>
    rw [ou_begin_eq_reset cfg s i env hc]
    exact metricsInv_reset cfg i h'
  | some m3 =>
    rw [ou_begin_eq_update cfg s i env m3 hc]
    refine ⟨?_, fun k m hm => h'.2 k m hm⟩
    intro k m hm
    simp only [mapUpdate] at hm
    by_cases hk : k = ou_key cfg.index i
    · rw [if_pos hk] at hm
      cases hm
      rw [beginSnapshot_start_time hc]
    · rw [if_neg hk] at hm
      exact h'.1 k m hm

theorem metricsInv_end {s : CollectorState} {t : Nat} (cfg : OuConfig)
    (i : Int) (env : ProbeEnv) (h : MetricsInv s t) (ht : t ≤ env.time_ns) :
    MetricsInv (ou_end cfg s i env) env.time_ns := by
  have h' := h.mono ht
  have hsh : t >>> 10 ≤ env.time_ns >>> 10 := by
    simp only [Nat.shiftRight_eq_div_pow]
    exact Nat.div_le_div_right ht
  cases hr : s.running_metrics (ou_key cfg.index i) with
  | none =>
    rw [ou_end_eq_reset_noRunning cfg s i env hr]
    exact metricsInv_reset cfg i h'
  | some m0 =>
    cases hf : endFinish cfg env m0 with
    | none =>
      rw [ou_end_eq_reset_fail cfg s i env m0 hr hf]
      exact metricsInv_reset cfg i h'
    | some m4 =>
      have hm0 : m0.start_time ≤ t >>> 10 := h.1 _ m0 hr
      have ht4 := endFinish_times hf
      have hgood : m4.start_time ≤ m4.end_time ∧ m4.end_time ≤ env.time_ns >>> 10 := by
        rw [ht4.1, ht4.2]
        exact ⟨le_trans hm0 hsh, le_refl _⟩
      have hrun : ∀ k m, mapDelete s.running_metrics (ou_key cfg.index i) k = some m →
          m.start_time ≤ env.time_ns >>> 10 := by
        intro k m hm
        simp only [mapDelete] at hm
        by_cases hk : k = ou_key cfg.index i
        · rw [if_pos hk] at hm
          cases hm
        · rw [if_neg hk] at hm
          exact le_trans (h.1 k m hm) hsh
      cases hcm : s.complete_metrics (ou_key cfg.index i) with
      | none =>
        rw [ou_end_eq_move cfg s i env m0 m4 hr hf hcm]
        refine ⟨hrun, ?_⟩
        intro k m hm
        simp only [mapUpdate] at hm
        by_cases hk : k = ou_key cfg.index i
        · rw [if_pos hk] at hm
          cases hm
          exact hgood
        · rw [if_neg hk] at hm
          exact ⟨(h.2 k m hm).1, le_trans (h.2 k m hm).2 hsh⟩
      | some acc =>
        rw [ou_end_eq_accum cfg s i env m0 m4 acc hr hf hcm]
        refine ⟨hrun, ?_⟩
        intro k m hm
        simp only [mapUpdate] at hm
        by_cases hk : k = ou_key cfg.index i
        · rw [if_pos hk] at hm
          cases hm
          have hacc := h.2 _ acc hcm
          constructor
          · show acc.start_time ≤ m4.end_time
            rw [ht4.2]
            exact le_trans (le_trans hacc.1 hacc.2) hsh
          · show m4.end_time ≤ env.time_ns >>> 10
            exact hgood.2
        · rw [if_neg hk] at hm
          exact ⟨(h.2 k m hm).1, le_trans (h.2 k m hm).2 hsh⟩

/-- FLUSH always resets the key, whichever branch is taken. -/
theorem ou_flush_fst (cfg : OuConfig) (s : CollectorState) (i : Int) (pid : Nat) :
    (ou_flush cfg s i pid).1 = ou_reset cfg s i := by
  cases hf : s.features i with
  | none => simp [ou_flush, hf]
  | some f =>
    cases hm : s.complete_metrics (ou_key cfg.index i) with
    | none => simp [ou_flush, hf, hm]
    | some m => simp [ou_flush, hf, hm]

/-- A record published by FLUSH is the completed-metrics entry of its key,
with the pid slot filled in. -/
theorem ou_flush_snd_some {cfg : OuConfig} {s : CollectorState} {i : Int}
    {pid : Nat} {rec : OuOutput} (h : (ou_flush cfg s i pid).2 = some rec) :
    ∃ f m, s.features i = some f ∧
      s.complete_metrics (ou_key cfg.index i) = some m ∧
      rec = { ou_index := cfg.index, features := f, metrics := { m with pid := pid } } := by
  cases hf : s.features i with
  | none => simp [ou_flush, hf] at h
  | some f =>
    cases hm : s.complete_metrics (ou_key cfg.index i) with
    | none => simp [ou_flush, hf, hm] at h
    | some m =>
      refine ⟨f, m, rfl, rfl, ?_⟩
      simp [ou_flush, hf, hm] at h
      exact h.symm

theorem metricsInv_features {s : CollectorState} {t : Nat} (i : Int) (p : Nat)
    (h : MetricsInv s t) : MetricsInv (ou_features s i p) t := h

theorem nondecrB_zero_cons {l : List Nat} (h : nondecrB l = true) :
    nondecrB (0 :: l) = true := by
  cases l with
  | nil => rfl
  | cons a l' => simp [nondecrB, Nat.ble_eq, h]

/-- Under a monotone clock, every record a trace publishes has ordered
timestamps. -/
theorem collectorRun_records (cfg : OuConfig) (tr : List MarkerEvent) :
    ∀ (s : CollectorState) (t : Nat), MetricsInv s t →
      nondecrB (t :: timesOf tr) = true →
      ∀ rec ∈ (collectorRun cfg s tr).2,
        rec.metrics.start_time ≤ rec.metrics.end_time := by
  induction tr with
  | nil =>
    intro s t _ _ rec hrec
    simp [collectorRun] at hrec
  | cons e es ih =>
    intro s t hinv hchain rec hrec
    cases e with
    | ouBegin i env =>
      have hchain' : (Nat.ble t env.time_ns && nondecrB (env.time_ns :: timesOf es)) = true :=
        hchain
      rw [Bool.and_eq_true] at hchain'
      have ht : t ≤ env.time_ns := Nat.le_of_ble_eq_true hchain'.1
      simp only [collectorRun, collectorStep, Option.toList_none, List.nil_append] at hrec
      exact ih (ou_begin cfg s i env) env.time_ns
        (metricsInv_begin cfg i env hinv ht) hchain'.2 rec hrec
    | ouEnd i env =>
      have hchain' : (Nat.ble t env.time_ns && nondecrB (env.time_ns :: timesOf es)) = true :=
        hchain
      rw [Bool.and_eq_true] at hchain'
      have ht : t ≤ env.time_ns := Nat.le_of_ble_eq_true hchain'.1
      simp only [collectorRun, collectorStep, Option.toList_none, List.nil_append] at hrec
      exact ih (ou_end cfg s i env) env.time_ns
        (metricsInv_end cfg i env hinv ht) hchain'.2 rec hrec
    | ouFeatures i p =>
      have hchain' : nondecrB (t :: timesOf es) = true := hchain
      simp only [collectorRun, collectorStep, Option.toList_none, List.nil_append] at hrec
      exact ih (ou_features s i p) t (metricsInv_features i p hinv) hchain' rec hrec
    | ouFlush i pid =>
      have hchain' : nondecrB (t :: timesOf es) = true := hchain
      have hnext : MetricsInv (ou_flush cfg s i pid).1 t := by
        rw [ou_flush_fst]
        exact metricsInv_reset cfg i hinv
      simp only [collectorRun, collectorStep] at hrec
      rw [List.mem_append] at hrec
      rcases hrec with hrec | hrec
      · cases ho : (ou_flush cfg s i pid).2 with
        | none => rw [ho] at hrec; cases hrec
        | some o =>
          rw [ho] at hrec
          simp only [Option.toList_some, List.mem_singleton] at hrec
          subst hrec
          rcases ou_flush_snd_some ho with ⟨f, m, _, hm, hrec⟩
          rw [hrec]
          exact (hinv.2 _ m hm).1
      · exact ih (ou_flush cfg s i pid).1 t hnext hchain' rec hrec

/-- C2: on END, a missing running snapshot resets the key and stores
nothing; a perf counter whose normalized end reading lies below the stored
snapshot (a would-be negative delta) resets the key and stores nothing;
and consequently — the monotone clock given — every record ever emitted
from the initial state has `end_time ≥ start_time` and non-negative perf
deltas. -/
theorem C2_end_guards_and_soundness :
    (∀ (cfg : OuConfig) (s : CollectorState) (i : Int) (env : ProbeEnv),
      s.running_metrics (ou_key cfg.index i) = none →
      ou_end cfg s i env = ou_reset cfg s i) ∧
    (∀ (cfg : OuConfig) (s : CollectorState) (i : Int) (env : ProbeEnv)
      (m0 : ResourceMetrics),
      s.running_metrics (ou_key cfg.index i) = some m0 →
      ((∃ v, env.cpu.cpu_cycles = some v ∧
          NormalizedPerfEventValue v < m0.cpu_cycles) ∨
       (∃ v, env.cpu.instructions = some v ∧
          NormalizedPerfEventValue v < m0.instructions) ∨
       (∃ v, env.cpu.cache_references = some v ∧
          NormalizedPerfEventValue v < m0.cache_references) ∨
       (∃ v, env.cpu.cache_misses = some v ∧
          NormalizedPerfEventValue v < m0.cache_misses) ∨
       (∃ v, env.cpu.ref_cpu_cycles = some v ∧
          NormalizedPerfEventValue v < m0.ref_cpu_cycles)) →
      ou_end cfg s i env = ou_reset cfg s i) ∧
    (∀ (cfg : OuConfig) (tr : List MarkerEvent),
      nondecrB (timesOf tr) = true →
      ∀ rec ∈ (collectorRun cfg collectorInit tr).2,
        rec.metrics.start_time ≤ rec.metrics.end_time ∧
        0 ≤ (rec.metrics.cpu_cycles : Int) ∧
        0 ≤ (rec.metrics.instructions : Int) ∧
        0 ≤ (rec.metrics.cache_references : Int) ∧
        0 ≤ (rec.metrics.cache_misses : Int) ∧
        0 ≤ (rec.metrics.ref_cpu_cycles : Int)) := by
  refine ⟨?_, ?_, ?_⟩
  · intro cfg s i env h
    exact ou_end_eq_reset_noRunning cfg s i env h
  · intro cfg s i env m0 h1 h2
    apply ou_end_eq_reset_fail cfg s i env m0 h1
    apply endFinish_eq_none
    apply cpu_end_eq_none_of_backward
    exact h2
  · intro cfg tr hmono rec hrec
    exact ⟨collectorRun_records cfg tr collectorInit 0 (metricsInv_init 0)
        (nondecrB_zero_cons hmono) rec hrec,
      Int.natCast_nonneg _, Int.natCast_nonneg _, Int.natCast_nonneg _,
      Int.natCast_nonneg _, Int.natCast_nonneg _⟩

/-- A perf reading with the given raw counter, no multiplexing. -/
def perfR (c : Nat) : PerfEventValue := { counter := c, enabled := 1, running := 1 }

/-- A CPU environment whose five counters all read `c` on CPU 0. -/
def cpuEnvOf (c : Nat) : CpuEnv :=
  { cpu_cycles := some (perfR c), instructions := some (perfR c)
    cache_references := some (perfR c), cache_misses := some (perfR c)
    ref_cpu_cycles := some (perfR c), cpu_k := 0 }

/-- A probe environment with all counters reading `c` at time `t` ns. -/
def envAt (c t : Nat) : ProbeEnv :=
  { cpu := cpuEnvOf c, task_read_bytes := 0, task_write_bytes := 0
    sock_copied_seq := 0, sock_bytes_sent := 0, time_ns := t }

/-- The running snapshot produced by `ou_begin` on `envAt 5 0`. -/
def m0C2 : ResourceMetrics :=
  { start_time := 0, end_time := 0, elapsed_us := 0, cpu_cycles := 5
    instructions := 5, cache_references := 5, cache_misses := 5, ref_cpu_cycles := 5
    disk_bytes_read := 0, disk_bytes_written := 0, network_bytes_read := 0
    network_bytes_written := 0, cpu_id := 0, pid := 0 }

/-- A four-event trace BEGIN END FEATURES FLUSH on key `(2, 5)`. -/
def trC2 : List MarkerEvent :=
  [MarkerEvent.ouBegin 5 (envAt 0 0), MarkerEvent.ouEnd 5 (envAt 0 1024),
   MarkerEvent.ouFeatures 5 42, MarkerEvent.ouFlush 5 7]

/-- The single record `trC2` publishes. -/
def recC2 : OuOutput :=
  { ou_index := 2, features := 42
    metrics :=
      { start_time := 0, end_time := 1, elapsed_us := 1, cpu_cycles := 0
        instructions := 0, cache_references := 0, cache_misses := 0
        ref_cpu_cycles := 0, disk_bytes_read := 0, disk_bytes_written := 0
        network_bytes_read := 0, network_bytes_written := 0, cpu_id := 0, pid := 7 } }

/-- Witness for `C2_end_guards_and_soundness`: END on the empty state
resets; END whose counters read 3 after a BEGIN that snapshot 5 resets;
and the record emitted by the concrete trace `trC2` is well-formed. -/
theorem C2_end_guards_and_soundness_witness :
    ou_end sampleCfg collectorInit 5 (envAt 3 0) = ou_reset sampleCfg collectorInit 5 ∧
    ou_end sampleCfg (ou_begin sampleCfg collectorInit 5 (envAt 5 0)) 5 (envAt 3 1024) =
      ou_reset sampleCfg (ou_begin sampleCfg collectorInit 5 (envAt 5 0)) 5 ∧
    (recC2.metrics.start_time ≤ recC2.metrics.end_time ∧
     0 ≤ (recC2.metrics.cpu_cycles : Int) ∧
     0 ≤ (recC2.metrics.instructions : Int) ∧
     0 ≤ (recC2.metrics.cache_references : Int) ∧
     0 ≤ (recC2.metrics.cache_misses : Int) ∧
     0 ≤ (recC2.metrics.ref_cpu_cycles : Int)) :=
  ⟨C2_end_guards_and_soundness.1 sampleCfg collectorInit 5 (envAt 3 0) rfl,
   C2_end_guards_and_soundness.2.1 sampleCfg
     (ou_begin sampleCfg collectorInit 5 (envAt 5 0)) 5 (envAt 3 1024) m0C2
     (by decide) (Or.inl ⟨perfR 3, rfl, by decide⟩),
   C2_end_guards_and_soundness.2.2 sampleCfg trC2 (by decide) recC2 (by decide)⟩

/-! ## C1: accumulation across BEGIN/END pairs -/

theorem U64_pos : 0 < U64 := Nat.pos_pow_of_pos 64 (by decide)

theorem sub64_lt (a b : Nat) : sub64 a b < U64 := Nat.mod_lt _ U64_pos

theorem add64_lt (a b : Nat) : add64 a b < U64 := Nat.mod_lt _ U64_pos

theorem normalizedPerf_lt (v : PerfEventValue) : NormalizedPerfEventValue v < U64 :=
  lt_of_le_of_lt (Nat.div_le_self _ _) (Nat.mod_lt _ U64_pos)

theorem counterDelta_lt {r : Option PerfEventValue} {snap d : Nat}
    (h : counterDelta r snap = some d) : d < U64 := by
  cases r with
  | none => cases h
  | some v =>
    simp only [counterDelta] at h
    split at h
    · cases h
    · cases h
      exact lt_of_le_of_lt (Nat.sub_le _ _) (normalizedPerf_lt v)

theorem cpu_start_fields {env : CpuEnv} {m m0 : ResourceMetrics}
    (h : cpu_start env m = some m0) :
    m0.start_time = m.start_time ∧ m0.end_time = m.end_time ∧
    m0.elapsed_us = m.elapsed_us ∧
    m0.disk_bytes_read = m.disk_bytes_read ∧
    m0.disk_bytes_written = m.disk_bytes_written ∧
    m0.network_bytes_read = m.network_bytes_read ∧
    m0.network_bytes_written = m.network_bytes_written ∧
    m0.cpu_id = m.cpu_id ∧ m0.pid = m.pid := by
  unfold cpu_start at h
  rcases e1 : env.cpu_cycles with _ | a <;>
    rcases e2 : env.instructions with _ | b <;>
    rcases e3 : env.cache_references with _ | c <;>
    rcases e4 : env.cache_misses with _ | d <;>
    rcases e5 : env.ref_cpu_cycles with _ | e <;>
    rw [e1, e2, e3, e4, e5] at h <;> cases h
  exact ⟨rfl, rfl, rfl, rfl, rfl, rfl, rfl, rfl, rfl⟩

theorem cpu_end_fields {env : CpuEnv} {m m' : ResourceMetrics}
    (h : cpu_end env m = some m') :
    m'.elapsed_us = m.elapsed_us ∧ m'.pid = m.pid ∧
    m'.disk_bytes_read = m.disk_bytes_read ∧
    m'.disk_bytes_written = m.disk_bytes_written ∧
    m'.network_bytes_read = m.network_bytes_read ∧
    m'.network_bytes_written = m.network_bytes_written ∧
    m'.cpu_id = env.cpu_k ∧
    m'.cpu_cycles < U64 ∧ m'.instructions < U64 ∧ m'.cache_references < U64 ∧
    m'.cache_misses < U64 ∧ m'.ref_cpu_cycles < U64 := by
  unfold cpu_end at h
  rcases e1 : counterDelta env.cpu_cycles m.cpu_cycles with _ | d1 <;>
    rcases e2 : counterDelta env.instructions m.instructions with _ | d2 <;>
    rcases e3 : counterDelta env.cache_references m.cache_references with _ | d3 <;>
    rcases e4 : counterDelta env.cache_misses m.cache_misses with _ | d4 <;>
    rcases e5 : counterDelta env.ref_cpu_cycles m.ref_cpu_cycles with _ | d5 <;>
    rw [e1, e2, e3, e4, e5] at h <;> cases h
  exact ⟨rfl, rfl, rfl, rfl, rfl, rfl, rfl,
    counterDelta_lt e1, counterDelta_lt e2, counterDelta_lt e3,
    counterDelta_lt e4, counterDelta_lt e5⟩

theorem beginSnapshot_fields {cfg : OuConfig} {env : ProbeEnv}
    {m3 : ResourceMetrics} (h : beginSnapshot cfg env = some m3) :
    m3.pid = 0 ∧
    (cfg.hasClientSocket = false →
      m3.network_bytes_read = 0 ∧ m3.network_bytes_written = 0) := by
  unfold beginSnapshot at h
  cases hc : cpu_start env.cpu zeroMetrics <;> rw [hc] at h
  · cases h
  · cases h
    have hs := cpu_start_fields hc
    cases hsock : cfg.hasClientSocket <;>
      simp [hsock, net_start, disk_start, hs.2.2.2.2.2.1, hs.2.2.2.2.2.2.1,
        hs.2.2.2.2.2.2.2.2, zeroMetrics]

theorem endFinish_fields {cfg : OuConfig} {env : ProbeEnv}
    {m0 m4 : ResourceMetrics} (h : endFinish cfg env m0 = some m4) :
    m4.elapsed_us = sub64 (env.time_ns >>> 10) m0.start_time ∧
    m4.cpu_id = env.cpu.cpu_k ∧ m4.pid = m0.pid ∧
    m4.cpu_cycles < U64 ∧ m4.instructions < U64 ∧ m4.cache_references < U64 ∧
    m4.cache_misses < U64 ∧ m4.ref_cpu_cycles < U64 ∧
    m4.disk_bytes_read < U64 ∧ m4.disk_bytes_written < U64 ∧
    (cfg.hasClientSocket = true →
      m4.network_bytes_read < U64 ∧ m4.network_bytes_written < U64) ∧
    (cfg.hasClientSocket = false →
      m4.network_bytes_read = m0.network_bytes_read ∧
      m4.network_bytes_written = m0.network_bytes_written) := by
  unfold endFinish at h
  cases hc : cpu_end env.cpu
      { m0 with end_time := env.time_ns >>> 10
                elapsed_us := sub64 (env.time_ns >>> 10) m0.start_time } <;>
    rw [hc] at h
  · cases h
  · cases h
    have hf := cpu_end_fields hc
    cases hsock : cfg.hasClientSocket <;>
      simp only [hsock, Bool.false_eq_true, if_false, if_true, disk_end, net_end] <;>
      refine ⟨hf.1, hf.2.2.2.2.2.2.1, hf.2.1, hf.2.2.2.2.2.2.2.1,
        hf.2.2.2.2.2.2.2.2.1, hf.2.2.2.2.2.2.2.2.2.1, hf.2.2.2.2.2.2.2.2.2.2.1,
        hf.2.2.2.2.2.2.2.2.2.2.2, ?_, ?_, ?_, ?_⟩
    · exact sub64_lt _ _
    · exact sub64_lt _ _
    · intro hcontra; cases hcontra
    · intro _
      exact ⟨hf.2.2.2.2.1, hf.2.2.2.2.2.1⟩
    · exact sub64_lt _ _
    · exact sub64_lt _ _
    · intro _
      exact ⟨sub64_lt _ _, sub64_lt _ _⟩
    · intro hcontra; cases hcontra

/-- The finished metrics one successful BEGIN/END pair contributes: the
begin snapshot fed through the end-side delta computation. -/
def pairDelta (cfg : OuConfig) (b e : ProbeEnv) : Option ResourceMetrics :=
  match beginSnapshot cfg b with
  | none => none
  | some m3 => endFinish cfg e m3

/-- The per-pair deltas of a list of BEGIN/END environment pairs; `none`
as soon as any pair fails. -/
def pairDeltas (cfg : OuConfig) : List (ProbeEnv × ProbeEnv) →
    Option (List ResourceMetrics)
  | [] => some []
  | p :: ps =>
    match pairDelta cfg p.1 p.2, pairDeltas cfg ps with
    | some d, some ds => some (d :: ds)
    | _, _ => none

/-- The marker-event encoding of a list of BEGIN/END pairs for one key. -/
def pairEvents (i : Int) : List (ProbeEnv × ProbeEnv) → List MarkerEvent
  | [] => []
  | p :: ps =>
    MarkerEvent.ouBegin i p.1 :: MarkerEvent.ouEnd i p.2 :: pairEvents i ps

theorem pairDelta_times {cfg : OuConfig} {b e : ProbeEnv}
    {d : ResourceMetrics} (h : pairDelta cfg b e = some d) :
    d.start_time = b.time_ns >>> 10 ∧ d.end_time = e.time_ns >>> 10 ∧
    d.cpu_id = e.cpu.cpu_k ∧ d.pid = 0 := by
  unfold pairDelta at h
  cases hb : beginSnapshot cfg b <;> rw [hb] at h
  · cases h
  · have ht := endFinish_times h
    have hf := endFinish_fields h
    have hs := beginSnapshot_fields hb
    exact ⟨by rw [ht.1, beginSnapshot_start_time hb], ht.2, hf.2.1,
      by rw [hf.2.2.1, hs.1]⟩

theorem pairDelta_bounds {cfg : OuConfig} {b e : ProbeEnv}
    {d : ResourceMetrics} (h : pairDelta cfg b e = some d) :
    d.elapsed_us < U64 ∧ d.cpu_cycles < U64 ∧ d.instructions < U64 ∧
    d.cache_references < U64 ∧ d.cache_misses < U64 ∧ d.ref_cpu_cycles < U64 ∧
    d.disk_bytes_read < U64 ∧ d.disk_bytes_written < U64 ∧
    d.network_bytes_read < U64 ∧ d.network_bytes_written < U64 ∧ d.pid < U64 := by
  unfold pairDelta at h
  cases hb : beginSnapshot cfg b <;> rw [hb] at h
  · cases h
  · have hf := endFinish_fields h
    have hs := beginSnapshot_fields hb
    have hpid : d.pid < U64 := by
      rw [hf.2.2.1, hs.1]
      exact U64_pos
    have hnet : d.network_bytes_read < U64 ∧ d.network_bytes_written < U64 := by
      cases hsock : cfg.hasClientSocket with
      | true => exact hf.2.2.2.2.2.2.2.2.2.2.1 hsock
      | false =>
        have h1 := hf.2.2.2.2.2.2.2.2.2.2.2 hsock
        have h2 := hs.2 hsock
        rw [h1.1, h1.2, h2.1, h2.2]
        exact ⟨U64_pos, U64_pos⟩
    refine ⟨?_, hf.2.2.2.1, hf.2.2.2.2.1, hf.2.2.2.2.2.1, hf.2.2.2.2.2.2.1,
      hf.2.2.2.2.2.2.2.1, hf.2.2.2.2.2.2.2.2.1, hf.2.2.2.2.2.2.2.2.2.1,
      hnet.1, hnet.2, hpid⟩
    rw [hf.1]
    exact sub64_lt _ _

theorem accumFold_start_time (ds : List ResourceMetrics) :
    ∀ acc : ResourceMetrics,
      (ds.foldl metrics_accumulate acc).start_time = acc.start_time := by
  induction ds with
  | nil => intro acc; rfl
  | cons d ds' ih =>
    intro acc
    rw [List.foldl_cons, ih]
    rfl

theorem accumFold_cpu_id (ds : List ResourceMetrics) :
    ∀ acc : ResourceMetrics,
      (ds.foldl metrics_accumulate acc).cpu_id = acc.cpu_id := by
  induction ds with
  | nil => intro acc; rfl
  | cons d ds' ih =>
    intro acc
    rw [List.foldl_cons, ih]
    rfl

theorem accumFold_end_time (ds : List ResourceMetrics) :
    ∀ acc : ResourceMetrics,
      (ds.foldl metrics_accumulate acc).end_time = (ds.getLastD acc).end_time := by
  induction ds with
  | nil => intro acc; rfl
  | cons d ds' ih =>
    intro acc
    rw [List.foldl_cons, ih, List.getLastD_cons]
    cases ds' with
    | nil => rfl
    | cons q qs => rw [List.getLastD_cons, List.getLastD_cons]

theorem accumFold_field (g : ResourceMetrics → Nat)
    (hg : ∀ a b, g (metrics_accumulate a b) = (g a + g b) % U64)
    (ds : List ResourceMetrics) :
    ∀ acc : ResourceMetrics, g acc < U64 →
      g (ds.foldl metrics_accumulate acc) = (g acc + (ds.map g).sum) % U64 := by
  induction ds with
  | nil =>
    intro acc hacc
    simp [Nat.mod_eq_of_lt hacc]
  | cons d ds' ih =>
    intro acc hacc
    rw [List.foldl_cons,
      ih (metrics_accumulate acc d) (by rw [hg]; exact Nat.mod_lt _ U64_pos),
      hg, Nat.mod_add_mod, List.map_cons, List.sum_cons, Nat.add_assoc]

theorem pairDeltas_lastEnd (cfg : OuConfig) :
    ∀ (ps : List (ProbeEnv × ProbeEnv)) (ds : List ResourceMetrics),
      pairDeltas cfg ps = some ds →
      ∀ (p : ProbeEnv × ProbeEnv) (d : ResourceMetrics),
        d.end_time = p.2.time_ns >>> 10 →
        (ds.getLastD d).end_time = (ps.getLastD p).2.time_ns >>> 10 := by
  intro ps
  induction ps with
  | nil =>
    intro ds hds p d hd
    cases hds
    exact hd
  | cons q qs ih =>
    intro ds hds p d hd
    rcases hq : pairDelta cfg q.1 q.2 with _ | dq <;>
      rcases hrest : pairDeltas cfg qs with _ | ds' <;>
      simp only [pairDeltas] at hds <;> rw [hq, hrest] at hds <;> cases hds
    rw [List.getLastD_cons, List.getLastD_cons]
    exact ih ds' hrest q dq (pairDelta_times hq).2.1

/-- Effect of one successful BEGIN/END pair on the key's maps: the
features map is untouched and the pair's delta is moved into — or
accumulated onto — the completed metrics. -/
theorem pair_step (cfg : OuConfig) (s : CollectorState) (i : Int)
    (b e : ProbeEnv) (d : ResourceMetrics) (hd : pairDelta cfg b e = some d) :
    (ou_end cfg (ou_begin cfg s i b) i e).features = s.features ∧
    (ou_end cfg (ou_begin cfg s i b) i e).complete_metrics (ou_key cfg.index i) =
      (match s.complete_metrics (ou_key cfg.index i) with
       | none => some d
       | some acc => some (metrics_accumulate acc d)) := by
  unfold pairDelta at hd
  cases hb : beginSnapshot cfg b with
  | none => rw [hb] at hd; cases hd
  | some m3 =>
    rw [hb] at hd
    rw [ou_begin_eq_update cfg s i b m3 hb]
    have hrun : ({ s with running_metrics := mapUpdate s.running_metrics (ou_key cfg.index i) m3 } : CollectorState).running_metrics (ou_key cfg.index i) = some m3 := by
      simp [mapUpdate]
    cases hcm : s.complete_metrics (ou_key cfg.index i) with
    | none =>
      rw [ou_end_eq_move cfg _ i e m3 d hrun hd hcm]
      exact ⟨rfl, by simp [mapUpdate]⟩
    | some acc =>
      rw [ou_end_eq_accum cfg _ i e m3 d acc hrun hd hcm]
      exact ⟨rfl, by simp [mapUpdate]⟩

/-- Running the events of a pair list from a state whose key already holds
`acc` publishes nothing, leaves the features map alone, and folds the
per-pair deltas onto `acc`. -/
theorem pairs_run (cfg : OuConfig) (i : Int)
    (ps : List (ProbeEnv × ProbeEnv)) :
    ∀ (ds : List ResourceMetrics) (s : CollectorState) (acc : ResourceMetrics),
      pairDeltas cfg ps = some ds →
      s.complete_metrics (ou_key cfg.index i) = some acc →
      (collectorRun cfg s (pairEvents i ps)).2 = [] ∧
      (collectorRun cfg s (pairEvents i ps)).1.features = s.features ∧
      (collectorRun cfg s (pairEvents i ps)).1.complete_metrics
          (ou_key cfg.index i) =
        some (ds.foldl metrics_accumulate acc) := by
  induction ps with
  | nil =>
    intro ds s acc hds hacc
    cases hds
    exact ⟨rfl, rfl, hacc⟩
  | cons p ps' ih =>
    intro ds s acc hds hacc
    rcases hd : pairDelta cfg p.1 p.2 with _ | d <;>
      rcases hrest : pairDeltas cfg ps' with _ | ds' <;>
      simp only [pairDeltas] at hds <;> rw [hd, hrest] at hds <;> cases hds
    have hstep := pair_step cfg s i p.1 p.2 d hd
    have hc2 : (ou_end cfg (ou_begin cfg s i p.1) i p.2).complete_metrics
        (ou_key cfg.index i) = some (metrics_accumulate acc d) := by
      rw [hstep.2, hacc]
    have IH := ih ds' (ou_end cfg (ou_begin cfg s i p.1) i p.2)
      (metrics_accumulate acc d) hrest hc2
    have h2 : (collectorRun cfg s (pairEvents i (p :: ps'))).2 =
        (collectorRun cfg (ou_end cfg (ou_begin cfg s i p.1) i p.2)
          (pairEvents i ps')).2 := by
      simp [pairEvents, collectorRun, collectorStep]
    have h1 : (collectorRun cfg s (pairEvents i (p :: ps'))).1 =
        (collectorRun cfg (ou_end cfg (ou_begin cfg s i p.1) i p.2)
          (pairEvents i ps')).1 := by
      simp [pairEvents, collectorRun, collectorStep]
    refine ⟨?_, ?_, ?_⟩
    · rw [h2]
      exact IH.1
    · rw [h1, IH.2.1, hstep.1]
    · rw [h1, IH.2.2, List.foldl_cons]

/-- As `pairs_run`, but starting with no completed metrics for the key:
the first pair's delta is moved in and the remaining pairs accumulate. -/
theorem pairs_run_empty (cfg : OuConfig) (i : Int) (p : ProbeEnv × ProbeEnv)
    (ps' : List (ProbeEnv × ProbeEnv)) (d : ResourceMetrics)
    (ds' : List ResourceMetrics) (s : CollectorState)
    (hd : pairDelta cfg p.1 p.2 = some d)
    (hrest : pairDeltas cfg ps' = some ds')
    (hc : s.complete_metrics (ou_key cfg.index i) = none) :
    (collectorRun cfg s (pairEvents i (p :: ps'))).2 = [] ∧
    (collectorRun cfg s (pairEvents i (p :: ps'))).1.features = s.features ∧
    (collectorRun cfg s (pairEvents i (p :: ps'))).1.complete_metrics
        (ou_key cfg.index i) =
      some (ds'.foldl metrics_accumulate d) := by
  have hstep := pair_step cfg s i p.1 p.2 d hd
  have hc2 : (ou_end cfg (ou_begin cfg s i p.1) i p.2).complete_metrics
      (ou_key cfg.index i) = some d := by
    rw [hstep.2, hc]
  have IH := pairs_run cfg i ps' ds'
    (ou_end cfg (ou_begin cfg s i p.1) i p.2) d hrest hc2
  have h2 : (collectorRun cfg s (pairEvents i (p :: ps'))).2 =
      (collectorRun cfg (ou_end cfg (ou_begin cfg s i p.1) i p.2)
        (pairEvents i ps')).2 := by
    simp [pairEvents, collectorRun, collectorStep]
  have h1 : (collectorRun cfg s (pairEvents i (p :: ps'))).1 =
      (collectorRun cfg (ou_end cfg (ou_begin cfg s i p.1) i p.2)
        (pairEvents i ps')).1 := by
    simp [pairEvents, collectorRun, collectorStep]
  refine ⟨?_, ?_, ?_⟩
  · rw [h2]
    exact IH.1
  · rw [h1, IH.2.1, hstep.1]
  · rw [h1, IH.2.2]

theorem collectorRun_append (cfg : OuConfig) (xs ys : List MarkerEvent) :
    ∀ s : CollectorState,
      collectorRun cfg s (xs ++ ys) =
        ((collectorRun cfg (collectorRun cfg s xs).1 ys).1,
         (collectorRun cfg s xs).2 ++
           (collectorRun cfg (collectorRun cfg s xs).1 ys).2) := by
  induction xs with
  | nil => intro s; simp [collectorRun]
  | cons e es ih =>
    intro s
    simp [collectorRun, ih, List.append_assoc]

/-- FLUSH with both maps populated publishes the assembled record. -/
theorem ou_flush_eq_emit (cfg : OuConfig) (s : CollectorState) (i : Int)
    (pid : Nat) (f : Nat) (m : ResourceMetrics)
    (hf : s.features i = some f)
    (hm : s.complete_metrics (ou_key cfg.index i) = some m) :
    ou_flush cfg s i pid =
      (ou_reset cfg s i,
       some { ou_index := cfg.index, features := f,
              metrics := { m with pid := pid } }) := by
  simp [ou_flush, hf, hm]

/-- C1: for a fresh key `(cfg.index, i)`, a sequence of n ≥ 1 successful
BEGIN/END pairs followed by FEATURES and FLUSH publishes exactly one
record; its summed metrics are the u64 sums of the per-END-pair deltas,
its `start_time` is the first BEGIN's timestamp, its `end_time` is the
last END's timestamp, and its `cpu_id` is that of the first END. -/
theorem C1_accumulated_record (cfg : OuConfig) (i : Int)
    (p : ProbeEnv × ProbeEnv) (ps : List (ProbeEnv × ProbeEnv))
    (f pid : Nat) (d : ResourceMetrics) (ds : List ResourceMetrics)
    (hd : pairDelta cfg p.1 p.2 = some d)
    (hds : pairDeltas cfg ps = some ds) :
    (collectorRun cfg collectorInit
        (pairEvents i (p :: ps) ++
          [MarkerEvent.ouFeatures i f, MarkerEvent.ouFlush i pid])).2 =
      [{ ou_index := cfg.index, features := f,
         metrics :=
           { start_time := p.1.time_ns >>> 10
             end_time := (ps.getLastD p).2.time_ns >>> 10
             elapsed_us := ((d :: ds).map (fun x => x.elapsed_us)).sum % U64
             cpu_cycles := ((d :: ds).map (fun x => x.cpu_cycles)).sum % U64
             instructions := ((d :: ds).map (fun x => x.instructions)).sum % U64
             cache_references := ((d :: ds).map (fun x => x.cache_references)).sum % U64
             cache_misses := ((d :: ds).map (fun x => x.cache_misses)).sum % U64
             ref_cpu_cycles := ((d :: ds).map (fun x => x.ref_cpu_cycles)).sum % U64
             disk_bytes_read := ((d :: ds).map (fun x => x.disk_bytes_read)).sum % U64
             disk_bytes_written := ((d :: ds).map (fun x => x.disk_bytes_written)).sum % U64
             network_bytes_read := ((d :: ds).map (fun x => x.network_bytes_read)).sum % U64
             network_bytes_written := ((d :: ds).map (fun x => x.network_bytes_written)).sum % U64
             cpu_id := p.2.cpu.cpu_k
             pid := pid } }] := by
  have hP := pairs_run_empty cfg i p ps d ds collectorInit hd hds rfl
  have hdt := pairDelta_times hd
  have hdb := pairDelta_bounds hd
  have hsecond : ∀ S : CollectorState,
      S.complete_metrics (ou_key cfg.index i) =
        some (ds.foldl metrics_accumulate d) →
      (collectorRun cfg S
        [MarkerEvent.ouFeatures i f, MarkerEvent.ouFlush i pid]).2 =
      [{ ou_index := cfg.index, features := f,
         metrics := { ds.foldl metrics_accumulate d with pid := pid } }] := by
    intro S hS
    have hfeat : (ou_features S i f).features i = some f := by
      simp [ou_features, mapUpdate]
    have hcomp : (ou_features S i f).complete_metrics (ou_key cfg.index i) =
        some (ds.foldl metrics_accumulate d) := hS
    have hfl := ou_flush_eq_emit cfg (ou_features S i f) i pid f
      (ds.foldl metrics_accumulate d) hfeat hcomp
    simp [collectorRun, collectorStep, hfl]
  have hmet : ({ ds.foldl metrics_accumulate d with pid := pid } : ResourceMetrics) =
      { start_time := p.1.time_ns >>> 10
        end_time := (ps.getLastD p).2.time_ns >>> 10
        elapsed_us := ((d :: ds).map (fun x => x.elapsed_us)).sum % U64
        cpu_cycles := ((d :: ds).map (fun x => x.cpu_cycles)).sum % U64
        instructions := ((d :: ds).map (fun x => x.instructions)).sum % U64
        cache_references := ((d :: ds).map (fun x => x.cache_references)).sum % U64
        cache_misses := ((d :: ds).map (fun x => x.cache_misses)).sum % U64
        ref_cpu_cycles := ((d :: ds).map (fun x => x.ref_cpu_cycles)).sum % U64
        disk_bytes_read := ((d :: ds).map (fun x => x.disk_bytes_read)).sum % U64
        disk_bytes_written := ((d :: ds).map (fun x => x.disk_bytes_written)).sum % U64
        network_bytes_read := ((d :: ds).map (fun x => x.network_bytes_read)).sum % U64
        network_bytes_written := ((d :: ds).map (fun x => x.network_bytes_written)).sum % U64
        cpu_id := p.2.cpu.cpu_k
        pid := pid } := by
    refine ResourceMetrics.ext ?_ ?_ ?_ ?_ ?_ ?_ ?_ ?_ ?_ ?_ ?_ ?_ ?_ ?_
    · show (ds.foldl metrics_accumulate d).start_time = _
      rw [accumFold_start_time ds d, hdt.1]
    · show (ds.foldl metrics_accumulate d).end_time = _
      rw [accumFold_end_time ds d]
      exact pairDeltas_lastEnd cfg ps ds hds p d hdt.2.1
    · show (ds.foldl metrics_accumulate d).elapsed_us = _
      rw [accumFold_field (fun x => x.elapsed_us) (fun a b => rfl) ds d hdb.1]
      simp
    · show (ds.foldl metrics_accumulate d).cpu_cycles = _
      rw [accumFold_field (fun x => x.cpu_cycles) (fun a b => rfl) ds d hdb.2.1]
      simp
    · show (ds.foldl metrics_accumulate d).instructions = _
      rw [accumFold_field (fun x => x.instructions) (fun a b => rfl) ds d hdb.2.2.1]
      simp
    · show (ds.foldl metrics_accumulate d).cache_references = _
      rw [accumFold_field (fun x => x.cache_references) (fun a b => rfl) ds d
        hdb.2.2.2.1]
      simp
    · show (ds.foldl metrics_accumulate d).cache_misses = _
      rw [accumFold_field (fun x => x.cache_misses) (fun a b => rfl) ds d
        hdb.2.2.2.2.1]
      simp
    · show (ds.foldl metrics_accumulate d).ref_cpu_cycles = _
      rw [accumFold_field (fun x => x.ref_cpu_cycles) (fun a b => rfl) ds d
        hdb.2.2.2.2.2.1]
      simp
    · show (ds.foldl metrics_accumulate d).disk_bytes_read = _
      rw [accumFold_field (fun x => x.disk_bytes_read) (fun a b => rfl) ds d
        hdb.2.2.2.2.2.2.1]
      simp
    · show (ds.foldl metrics_accumulate d).disk_bytes_written = _
      rw [accumFold_field (fun x => x.disk_bytes_written) (fun a b => rfl) ds d
        hdb.2.2.2.2.2.2.2.1]
      simp
    · show (ds.foldl metrics_accumulate d).network_bytes_read = _
      rw [accumFold_field (fun x => x.network_bytes_read) (fun a b => rfl) ds d
        hdb.2.2.2.2.2.2.2.2.1]
      simp
    · show (ds.foldl metrics_accumulate d).network_bytes_written = _
      rw [accumFold_field (fun x => x.network_bytes_written) (fun a b => rfl) ds d
        hdb.2.2.2.2.2.2.2.2.2.1]
      simp
    · show (ds.foldl metrics_accumulate d).cpu_id = _
      rw [accumFold_cpu_id ds d, hdt.2.2.1]
    · rfl
  rw [collectorRun_append cfg (pairEvents i (p :: ps))
    [MarkerEvent.ouFeatures i f, MarkerEvent.ouFlush i pid] collectorInit]
  rw [hP.1, List.nil_append, hsecond _ hP.2.2, hmet]

/-- First BEGIN/END pair for the C1 witness: counters go 10 → 30. -/
def c1p1 : ProbeEnv × ProbeEnv := (envAt 10 0, envAt 30 1024)

/-- Second BEGIN/END pair for the C1 witness: counters go 50 → 55. -/
def c1p2 : ProbeEnv × ProbeEnv := (envAt 50 2048, envAt 55 3072)

/-- Delta of the first witness pair. -/
def c1d1 : ResourceMetrics :=
  { start_time := 0, end_time := 1, elapsed_us := 1, cpu_cycles := 20
    instructions := 20, cache_references := 20, cache_misses := 20
    ref_cpu_cycles := 20, disk_bytes_read := 0, disk_bytes_written := 0
    network_bytes_read := 0, network_bytes_written := 0, cpu_id := 0, pid := 0 }

/-- Delta of the second witness pair. -/
def c1d2 : ResourceMetrics :=
  { start_time := 2, end_time := 3, elapsed_us := 1, cpu_cycles := 5
    instructions := 5, cache_references := 5, cache_misses := 5
    ref_cpu_cycles := 5, disk_bytes_read := 0, disk_bytes_written := 0
    network_bytes_read := 0, network_bytes_written := 0, cpu_id := 0, pid := 0 }

/-- Witness for `C1_accumulated_record`: two BEGIN/END pairs with deltas
20 and 5 per counter, then FEATURES and FLUSH, on key `(2, 5)`. -/
theorem C1_accumulated_record_witness :
    (collectorRun sampleCfg collectorInit
        (pairEvents 5 (c1p1 :: [c1p2]) ++
          [MarkerEvent.ouFeatures 5 42, MarkerEvent.ouFlush 5 7])).2 =
      [{ ou_index := sampleCfg.index, features := 42,
         metrics :=
           { start_time := c1p1.1.time_ns >>> 10
             end_time := ([c1p2].getLastD c1p1).2.time_ns >>> 10
             elapsed_us := ((c1d1 :: [c1d2]).map (fun x => x.elapsed_us)).sum % U64
             cpu_cycles := ((c1d1 :: [c1d2]).map (fun x => x.cpu_cycles)).sum % U64
             instructions := ((c1d1 :: [c1d2]).map (fun x => x.instructions)).sum % U64
             cache_references := ((c1d1 :: [c1d2]).map (fun x => x.cache_references)).sum % U64
             cache_misses := ((c1d1 :: [c1d2]).map (fun x => x.cache_misses)).sum % U64
             ref_cpu_cycles := ((c1d1 :: [c1d2]).map (fun x => x.ref_cpu_cycles)).sum % U64
             disk_bytes_read := ((c1d1 :: [c1d2]).map (fun x => x.disk_bytes_read)).sum % U64
             disk_bytes_written := ((c1d1 :: [c1d2]).map (fun x => x.disk_bytes_written)).sum % U64
             network_bytes_read := ((c1d1 :: [c1d2]).map (fun x => x.network_bytes_read)).sum % U64
             network_bytes_written := ((c1d1 :: [c1d2]).map (fun x => x.network_bytes_written)).sum % U64
             cpu_id := c1p1.2.cpu.cpu_k
             pid := 7 } }] :=
  C1_accumulated_record sampleCfg 5 c1p1 [c1p2] 42 7 c1d1 [c1d2]
    (by decide) (by decide)

/-! ## In-server QSS counter pipeline (the qss extension and executors.h) -/

/-- `QSSINSTRUMENTATION_SIGNATURE` (0xFACADE): the word tagging an
`Instrumentation` block as a QSS counter block. -/
def QSSINSTRUMENTATION_SIGNATURE : Nat := 0xFACADE

/-- `PLAN_INDEPENDENT_INSTR_ID_START` (-4): plan-independent
instrumentation ids are allocated downward from here. -/
def PLAN_INDEPENDENT_INSTR_ID_START : Int := -4

/-- `struct QSSInstrumentation`: the server's `Instrumentation` extended
with a signature word, a plan-node id and ten `float8` counters (the
counters are opaque accumulators; modelled as integers). -/
structure QSSInstrumentation where
  signature : Nat
  plan_node_id : Int
  counters : List Int
deriving DecidableEq

/-- `struct ExecutorInstrument`: one frame of the per-backend stack. -/
structure ExecutorInstrument where
  statement_ts : Int
  plan_separate_instr_id : Int
  statement_instrs : List QSSInstrumentation
deriving DecidableEq

/-- One row of `pg_qss_plans(query_id, generation, db_id, pid, timestamp,
features)`, primary key `(query_id, generation, db_id, pid)`. -/
structure PlansRow where
  query_id : Nat
  generation : Int
  db_id : Nat
  pid : Nat
  timestamp : Int
  features_text : Nat
deriving DecidableEq

/-- One row of `pg_qss_stats`; the ten `float8` counter columns and the
params text are not modelled (floating point), only the identifying
columns. -/
structure StatsRow where
  query_id : Nat
  db_id : Nat
  pid : Nat
  timestamp : Int
  plan_node_id : Int
deriving DecidableEq

/-- Per-backend state touched by the QSS hooks: the frame stack (`top`,
head = top of stack), `nesting_level`, the two persisted tables, the
current memory context, and counters of timer allocations and chained
hook invocations (`standard_ExecutorStart` / `standard_ExecutorEnd` or the
previous occupants of the hook slots). -/
structure QSSState where
  top : List ExecutorInstrument
  nesting_level : Int
  plans : List PlansRow
  stats : List StatsRow
  mem_ctx : Nat
  timers_alloc : Nat
  hook_start_calls : Nat
  hook_end_calls : Nat
deriving DecidableEq

/-- The GUC flags and per-backend constants the hooks read, plus whether
the tables/hook slots are installed (`RelnameGetRelid` positive,
`qss_AllocInstrumentation_hook` set by `_PG_init`). -/
structure QSSConfig where
  qss_capture_enabled : Bool
  qss_capture_exec_stats : Bool
  qss_capture_query_runtime : Bool
  tscout_capture_nested : Bool
  alloc_hook_present : Bool
  plans_table_present : Bool
  stats_table_present : Bool
  my_database_id : Nat
  my_proc_pid : Nat
deriving DecidableEq

/-- The slice of `QueryDesc` the hooks read: the planned statement's
queryId, the plan generation, the destination check
(`dest->mydest == DestSQLFunction`), whether `totaltime` is attached, the
query memory context, the statement start timestamp, the plan tree
(flattened in the traversal order of `ReplaceInstrumentation`, each node
tagged with whether its `NodeTag` is in the replaced set: index/index-only
scan, modify-table, lock-rows, nested-loop, aggregate, bitmap-index/heap
scan) and the serialized plan text. -/
structure QueryDesc where
  queryId : Nat
  generation : Int
  isSQLFunction : Bool
  hasTotaltime : Bool
  es_query_cxt : Nat
  stmt_start_ts : Int
  planNodes : List (Bool × Int)
  serialized_plan : Nat
deriving DecidableEq

/-- `ReplaceInstrumentation`: walk the plan tree and give each node of a
replaced tag a fresh signed counter block carrying its plan-node id. -/
def ReplaceInstrumentation (planNodes : List (Bool × Int)) :
    List QSSInstrumentation :=
  (planNodes.filter (fun pn => pn.1)).map
    (fun pn => { signature := QSSINSTRUMENTATION_SIGNATURE
                 plan_node_id := pn.2
                 counters := List.replicate 10 0 })

/-- `qss_ExecutorStart`: bump the nesting level, chain to the previous (or
standard) ExecutorStart, then — unless capture is disabled, the generation
is negative, the destination is a SQL function, or this is a nested
invocation with nested capture off — optionally attach a total-time
timer, push a fresh frame and replace the plan tree's instrumentation.
(The memory-context switch brackets the body and restores itself.) -/
def qss_ExecutorStart (cfg : QSSConfig) (s : QSSState) (q : QueryDesc) :
    QSSState × QueryDesc :=
  let s := { s with nesting_level := s.nesting_level + 1 }
  let s := { s with hook_start_calls := s.hook_start_calls + 1 }
  if ¬cfg.qss_capture_enabled then (s, q)
  else if q.generation < 0 then (s, q)
  else if q.isSQLFunction then (s, q)
  else if s.nesting_level ≠ 1 ∧ ¬cfg.tscout_capture_nested then (s, q)
  else
    let attach := cfg.qss_capture_query_runtime ∧ ¬q.hasTotaltime
    let q := if attach then { q with hasTotaltime := true } else q
    let s := if attach then { s with timers_alloc := s.timers_alloc + 1 } else s
    let fr : ExecutorInstrument :=
      { statement_ts := q.stmt_start_ts
        plan_separate_instr_id := PLAN_INDEPENDENT_INSTR_ID_START
        statement_instrs := ReplaceInstrumentation q.planNodes }
    ({ s with top := fr :: s.top }, q)

/-- `IndexLookup` from the qss extension.  Modelled from the spec: its
B-tree descent (`_bt_search_insert` / `_bt_check_unique`, PostgreSQL
internals that are not part of these sources) is modelled as an exact-key
existence check on the unique index `(query_id, generation, db_id, pid)`;
it returns true iff a row with that key already exists. -/
def IndexLookup (rows : List PlansRow) (qid : Nat) (gen : Int)
    (db : Nat) (pid : Nat) : Bool :=
  rows.any (fun r =>
    r.query_id == qid && r.generation == gen && r.db_id == db && r.pid == pid)

/-- The plans-table upsert step of `qss_ExecutorEnd`: when the table and
its index exist, insert the heap tuple and the index tuple only when the
B-tree existence check does not find the key. -/
def plansUpsert (cfg : QSSConfig) (q : QueryDesc) (ts : Int)
    (rows : List PlansRow) : List PlansRow :=
  if cfg.plans_table_present then
    if IndexLookup rows q.queryId q.generation cfg.my_database_id
        cfg.my_proc_pid then rows
    else
      rows ++ [{ query_id := q.queryId, generation := q.generation
                 db_id := cfg.my_database_id, pid := cfg.my_proc_pid
                 timestamp := ts, features_text := q.serialized_plan }]
  else rows

/-- The stats-table append step of `qss_ExecutorEnd`: one whole-query
elapsed-time row (plan_node_id = -1) when runtime capture is on and a
timer is attached, then one row per counter block of the frame when
exec-stats capture is on. -/
def statsAppend (cfg : QSSConfig) (q : QueryDesc) (fr : ExecutorInstrument)
    (rows : List StatsRow) : List StatsRow :=
  if (cfg.qss_capture_exec_stats ∨ cfg.qss_capture_query_runtime) ∧
      cfg.stats_table_present then
    let rows :=
      if cfg.qss_capture_query_runtime ∧ q.hasTotaltime then
        rows ++ [{ query_id := q.queryId, db_id := cfg.my_database_id
                   pid := cfg.my_proc_pid, timestamp := fr.statement_ts
                   plan_node_id := -1 }]
      else rows
    if cfg.qss_capture_exec_stats then
      rows ++ fr.statement_instrs.map (fun instr =>
        { query_id := q.queryId, db_id := cfg.my_database_id
          pid := cfg.my_proc_pid, timestamp := fr.statement_ts
          plan_node_id := instr.plan_node_id })
    else rows
  else rows

/-- `qss_ExecutorEnd`: under the same gates as the start hook, switch into
the per-query context; unless the query id is 0 or no frame exists,
upsert the plans row and append the stats rows; pop the frame (when one
exists), restore the memory context; finally chain to the previous (or
standard) ExecutorEnd and decrement the nesting level. -/
def qss_ExecutorEnd (cfg : QSSConfig) (s : QSSState) (q : QueryDesc) :
    QSSState :=
  let s1 :=
    if ¬cfg.qss_capture_enabled then s
    else if q.isSQLFunction then s
    else if q.generation < 0 then s
    else if ¬cfg.tscout_capture_nested ∧ s.nesting_level ≠ 1 then s
    else
      let s2 :=
        match s.top with
        | [] => { s with mem_ctx := q.es_query_cxt }
        | fr :: _ =>
          if q.queryId = 0 then { s with mem_ctx := q.es_query_cxt }
          else
            { s with mem_ctx := q.es_query_cxt
                     plans := plansUpsert cfg q fr.statement_ts s.plans
                     stats := statsAppend cfg q fr s.stats }
      { s2 with top := s2.top.tail, mem_ctx := s.mem_ctx }
  { s1 with hook_end_calls := s1.hook_end_calls + 1
            nesting_level := s1.nesting_level - 1 }

/-- `qss_AllocInstrumentation` (the hook installed by `_PG_init`):
returns null when no frame has been pushed; otherwise allocates a signed
counter block carrying the frame's next plan-independent id, decrements
that id, and appends the block to the frame's list. -/
def qss_AllocInstrumentation (s : QSSState) :
    QSSState × Option QSSInstrumentation :=
  match s.top with
  | [] => (s, none)
  | fr :: rest =>
    let instr : QSSInstrumentation :=
      { signature := QSSINSTRUMENTATION_SIGNATURE
        plan_node_id := fr.plan_separate_instr_id
        counters := List.replicate 10 0 }
    ({ s with top :=
        { fr with plan_separate_instr_id := fr.plan_separate_instr_id - 1
                  statement_instrs := fr.statement_instrs ++ [instr] } :: rest },
     some instr)

/-- `AllocQSSInstrumentation` from executors.h: call the hook only when
exec-stats capture is enabled and the hook is installed; null otherwise. -/
def AllocQSSInstrumentation (cfg : QSSConfig) (s : QSSState) :
    QSSState × Option QSSInstrumentation :=
  if cfg.qss_capture_exec_stats ∧ cfg.alloc_hook_present then
    qss_AllocInstrumentation s
  else (s, none)

/-- The common gate of the two executor hooks, evaluated at nesting level
`n` (the post-increment level for the start hook, the current level for
the end hook): capture on, non-negative generation, not a SQL function,
and either outermost or nested capture enabled. -/
def qssGatesB (cfg : QSSConfig) (q : QueryDesc) (n : Int) : Bool :=
  cfg.qss_capture_enabled && !q.isSQLFunction && decide (0 ≤ q.generation) &&
    (decide (n = 1) || cfg.tscout_capture_nested)

/-- The frame `qss_ExecutorStart` pushes for `q`. -/
def startFrame (q : QueryDesc) : ExecutorInstrument :=
  { statement_ts := q.stmt_start_ts
    plan_separate_instr_id := PLAN_INDEPENDENT_INSTR_ID_START
    statement_instrs := ReplaceInstrumentation q.planNodes }

theorem qss_ExecutorStart_spec (cfg : QSSConfig) (s : QSSState) (q : QueryDesc) :
    (qss_ExecutorStart cfg s q).1.top =
      (if qssGatesB cfg q (s.nesting_level + 1) then
        startFrame ((qss_ExecutorStart cfg s q).2) :: s.top
       else s.top) ∧
    (qss_ExecutorStart cfg s q).1.nesting_level = s.nesting_level + 1 ∧
    (qss_ExecutorStart cfg s q).2.generation = q.generation ∧
    (qss_ExecutorStart cfg s q).2.isSQLFunction = q.isSQLFunction ∧
    (qss_ExecutorStart cfg s q).2.queryId = q.queryId := by
  by_cases h1 : cfg.qss_capture_enabled = true
  · by_cases h2 : q.generation < 0
    · simp [qss_ExecutorStart, qssGatesB, h1, h2, not_le.2 h2]
    · by_cases h3 : q.isSQLFunction = true
      · simp [qss_ExecutorStart, qssGatesB, h1, h2, h3]
      · have h3' : q.isSQLFunction = false := by simpa using h3
        by_cases h4 : s.nesting_level = 0
        · have hg : qssGatesB cfg q (s.nesting_level + 1) = true := by
            simp [qssGatesB, h1, h3', not_lt.1 h2, h4]
          have hg1 : qssGatesB cfg q 1 = true := by
            rw [h4] at hg
            simpa using hg
          by_cases h5 : cfg.qss_capture_query_runtime = true ∧ q.hasTotaltime = false <;>
            simp [qss_ExecutorStart, startFrame, h1, h2, h3', h4, h5, hg, hg1]
        · by_cases h4b : cfg.tscout_capture_nested = true
          · have hg : qssGatesB cfg q (s.nesting_level + 1) = true := by
              simp [qssGatesB, h1, h3', not_lt.1 h2, h4b]
            by_cases h5 : cfg.qss_capture_query_runtime = true ∧ q.hasTotaltime = false <;>
              simp [qss_ExecutorStart, startFrame, h1, h2, h3', h4, h4b, h5, hg]
          · have h4b' : cfg.tscout_capture_nested = false := by simpa using h4b
            have hg : qssGatesB cfg q (s.nesting_level + 1) = false := by
              simp [qssGatesB, h4, h4b']
            simp [qss_ExecutorStart, h1, h2, h3', h4, h4b', hg]
  · have h1' : cfg.qss_capture_enabled = false := by simpa using h1
    simp [qss_ExecutorStart, qssGatesB, h1']

theorem qss_ExecutorEnd_spec (cfg : QSSConfig) (s : QSSState) (q : QueryDesc) :
    (qss_ExecutorEnd cfg s q).top =
      (if qssGatesB cfg q s.nesting_level then s.top.tail else s.top) ∧
    (qss_ExecutorEnd cfg s q).nesting_level = s.nesting_level - 1 := by
  by_cases h1 : cfg.qss_capture_enabled = true
  · by_cases h3 : q.isSQLFunction = true
    · simp [qss_ExecutorEnd, qssGatesB, h1, h3]
    · have h3' : q.isSQLFunction = false := by simpa using h3
      by_cases h2 : q.generation < 0
      · simp [qss_ExecutorEnd, qssGatesB, h1, h3', h2, not_le.2 h2]
      · by_cases h4 : s.nesting_level = 1
        · have hg : qssGatesB cfg q s.nesting_level = true := by
            simp [qssGatesB, h1, h3', not_lt.1 h2, h4]
          have hg1 : qssGatesB cfg q 1 = true := by
            rw [h4] at hg
            exact hg
          cases htop : s.top with
          | nil =>
            by_cases h0 : q.queryId = 0 <;>
              simp [qss_ExecutorEnd, h1, h2, h3', h4, htop, h0, hg, hg1]
          | cons fr rest =>
            by_cases h0 : q.queryId = 0 <;>
              simp [qss_ExecutorEnd, h1, h2, h3', h4, htop, h0, hg, hg1]
        · by_cases h4b : cfg.tscout_capture_nested = true
          · have hg : qssGatesB cfg q s.nesting_level = true := by
              simp [qssGatesB, h1, h3', not_lt.1 h2, h4b]
            cases htop : s.top with
            | nil =>
              by_cases h0 : q.queryId = 0 <;>
                simp [qss_ExecutorEnd, h1, h2, h3', h4, h4b, htop, h0, hg]
            | cons fr rest =>
              by_cases h0 : q.queryId = 0 <;>
                simp [qss_ExecutorEnd, h1, h2, h3', h4, h4b, htop, h0, hg]
          · have h4b' : cfg.tscout_capture_nested = false := by simpa using h4b
            have hg : qssGatesB cfg q s.nesting_level = false := by
              simp [qssGatesB, h4, h4b']
            simp [qss_ExecutorEnd, h1, h2, h3', h4, h4b', hg]
  · have h1' : cfg.qss_capture_enabled = false := by simpa using h1
    simp [qss_ExecutorEnd, qssGatesB, h1']

/-- A well-nested workload of executor invocations: each node is one
statement executed between its `qss_ExecutorStart` and its matching
`qss_ExecutorEnd`, with its nested statements in between. -/
inductive ExecTree where
  | node (q : QueryDesc) (kids : List ExecTree)

mutual

/-- Run one invocation: start hook, nested invocations, end hook (the end
hook receives the `QueryDesc` as the start hook left it). -/
def runTree (cfg : QSSConfig) (s : QSSState) : ExecTree → QSSState
  | .node q kids =>
    let r := qss_ExecutorStart cfg s q
    qss_ExecutorEnd cfg (runTrees cfg r.1 kids) r.2

/-- Run a sequence of sibling invocations. -/
def runTrees (cfg : QSSConfig) (s : QSSState) : List ExecTree → QSSState
  | [] => s
  | t :: ts => runTrees cfg (runTree cfg s t) ts

end

mutual

theorem runTree_stack (cfg : QSSConfig) :
    ∀ (t : ExecTree) (s : QSSState),
      (runTree cfg s t).top = s.top ∧
      (runTree cfg s t).nesting_level = s.nesting_level
  | .node q kids, s => by
    have hstart := qss_ExecutorStart_spec cfg s q
    have hkids := runTrees_stack cfg kids (qss_ExecutorStart cfg s q).1
    have hend := qss_ExecutorEnd_spec cfg
      (runTrees cfg (qss_ExecutorStart cfg s q).1 kids)
      (qss_ExecutorStart cfg s q).2
    have hgeq : ∀ n : Int,
        qssGatesB cfg (qss_ExecutorStart cfg s q).2 n = qssGatesB cfg q n := by
      intro n
      simp [qssGatesB, hstart.2.2.1, hstart.2.2.2.1]
    have hnest : (runTrees cfg (qss_ExecutorStart cfg s q).1 kids).nesting_level =
        s.nesting_level + 1 := by
      rw [hkids.2, hstart.2.1]
    have htop : (runTrees cfg (qss_ExecutorStart cfg s q).1 kids).top =
        (if qssGatesB cfg q (s.nesting_level + 1) then
          startFrame ((qss_ExecutorStart cfg s q).2) :: s.top else s.top) := by
      rw [hkids.1, hstart.1]
    simp only [runTree]
    constructor
    · rw [hend.1, hgeq, hnest, htop]
      by_cases hb : qssGatesB cfg q (s.nesting_level + 1) = true
      · simp [hb]
      · simp [hb]
    · rw [hend.2, hnest]
      omega

theorem runTrees_stack (cfg : QSSConfig) :
    ∀ (ts : List ExecTree) (s : QSSState),
      (runTrees cfg s ts).top = s.top ∧
      (runTrees cfg s ts).nesting_level = s.nesting_level
  | [], s => ⟨rfl, rfl⟩
  | t :: ts, s => by
    have h1 := runTree_stack cfg t s
    have h2 := runTrees_stack cfg ts (runTree cfg s t)
    simp only [runTrees]
    exact ⟨h2.1.trans h1.1, h2.2.trans h1.2⟩

end

/-- C7: executor frames form a LIFO stack.  After any well-nested workload
the frame pushed by each `qss_ExecutorStart` has been popped by its
matching `qss_ExecutorEnd` — `top` is restored to its previous value — and
`nesting_level` returns to its prior value after every start/end pair. -/
theorem C7_executor_stack_lifo (cfg : QSSConfig) (t : ExecTree) (s : QSSState) :
    (runTree cfg s t).top = s.top ∧
    (runTree cfg s t).nesting_level = s.nesting_level :=
  runTree_stack cfg t s

/-- Full case analysis of `qss_ExecutorEnd`: the gates fail (chain and
decrement only); the body is skipped because the query id is 0 or no
frame exists (pop, chain, decrement); or the persistence body runs on the
top frame (upsert plans, append stats, pop, chain, decrement).  The
memory context is restored in every branch. -/
theorem qss_ExecutorEnd_cases (cfg : QSSConfig) (s : QSSState) (q : QueryDesc) :
    qss_ExecutorEnd cfg s q =
      { s with hook_end_calls := s.hook_end_calls + 1
               nesting_level := s.nesting_level - 1 } ∨
    qss_ExecutorEnd cfg s q =
      { s with top := s.top.tail
               hook_end_calls := s.hook_end_calls + 1
               nesting_level := s.nesting_level - 1 } ∨
    ∃ fr rest, s.top = fr :: rest ∧
      qss_ExecutorEnd cfg s q =
        { s with plans := plansUpsert cfg q fr.statement_ts s.plans
                 stats := statsAppend cfg q fr s.stats
                 top := rest
                 hook_end_calls := s.hook_end_calls + 1
                 nesting_level := s.nesting_level - 1 } := by
  by_cases h1 : cfg.qss_capture_enabled = true
  · by_cases h3 : q.isSQLFunction = true
    · left
      simp [qss_ExecutorEnd, h1, h3]
    · have h3' : q.isSQLFunction = false := by simpa using h3
      by_cases h2 : q.generation < 0
      · left
        simp [qss_ExecutorEnd, h1, h3', h2]
      · by_cases h4a : cfg.tscout_capture_nested = true
        · cases htop : s.top with
          | nil =>
            right; left
            simp [qss_ExecutorEnd, h1, h3', h2, h4a, htop]
          | cons fr rest =>
            by_cases h0 : q.queryId = 0
            · right; left
              simp [qss_ExecutorEnd, h1, h3', h2, h4a, htop, h0]
            · right; right
              refine ⟨fr, rest, rfl, ?_⟩
              simp [qss_ExecutorEnd, h1, h3', h2, h4a, htop, h0]
        · have h4a' : cfg.tscout_capture_nested = false := by simpa using h4a
          by_cases h4n : s.nesting_level = 1
          · cases htop : s.top with
            | nil =>
              right; left
              simp [qss_ExecutorEnd, h1, h3', h2, h4a', h4n, htop]
            | cons fr rest =>
              by_cases h0 : q.queryId = 0
              · right; left
                simp [qss_ExecutorEnd, h1, h3', h2, h4a', h4n, htop, h0]
              · right; right
                refine ⟨fr, rest, rfl, ?_⟩
                simp [qss_ExecutorEnd, h1, h3', h2, h4a', h4n, htop, h0]
          · left
            simp [qss_ExecutorEnd, h1, h3', h2, h4a', h4n]
  · left
    have h1' : cfg.qss_capture_enabled = false := by simpa using h1
    simp [qss_ExecutorEnd, h1']

/-- Two plans rows with the same primary key `(query_id, generation,
db_id, pid)`. -/
def plansSameKey (r1 r2 : PlansRow) : Prop :=
  r1.query_id = r2.query_id ∧ r1.generation = r2.generation ∧
  r1.db_id = r2.db_id ∧ r1.pid = r2.pid

/-- Uniqueness of the plans table on its primary key. -/
def plansUnique (rows : List PlansRow) : Prop :=
  rows.Pairwise (fun r1 r2 => ¬plansSameKey r1 r2)

theorem plansUpsert_unique (cfg : QSSConfig) (q : QueryDesc) (ts : Int)
    (rows : List PlansRow) (h : plansUnique rows) :
    plansUnique (plansUpsert cfg q ts rows) := by
  unfold plansUpsert
  by_cases hp : cfg.plans_table_present = true
  · by_cases hlook : IndexLookup rows q.queryId q.generation cfg.my_database_id
        cfg.my_proc_pid = true
    · simp [hp, hlook, h]
    · have hlook' : IndexLookup rows q.queryId q.generation cfg.my_database_id
          cfg.my_proc_pid = false := by simpa using hlook
      simp only [hp, hlook', if_true, if_false, Bool.false_eq_true]
      rw [plansUnique, List.pairwise_append]
      refine ⟨h, List.pairwise_singleton _ _, ?_⟩
      intro a ha b hb
      simp only [List.mem_singleton] at hb
      subst hb
      intro hkey
      rcases hkey with ⟨hk1, hk2, hk3, hk4⟩
      have hmem : IndexLookup rows q.queryId q.generation cfg.my_database_id
          cfg.my_proc_pid = true := by
        simp only [IndexLookup, List.any_eq_true]
        exact ⟨a, ha, by simp [hk1, hk2, hk3, hk4]⟩
      simp [hmem] at hlook'
  · simp [hp, h]

theorem plansUpsert_found (cfg : QSSConfig) (q : QueryDesc) (ts : Int)
    (rows : List PlansRow)
    (h : IndexLookup rows q.queryId q.generation cfg.my_database_id
      cfg.my_proc_pid = true) :
    plansUpsert cfg q ts rows = rows := by
  unfold plansUpsert
  by_cases hp : cfg.plans_table_present = true <;> simp [hp, h]

theorem IndexLookup_plansUpsert (cfg : QSSConfig) (q : QueryDesc) (ts : Int)
    (rows : List PlansRow) (hp : cfg.plans_table_present = true) :
    IndexLookup (plansUpsert cfg q ts rows) q.queryId q.generation
      cfg.my_database_id cfg.my_proc_pid = true := by
  by_cases hlook : IndexLookup rows q.queryId q.generation cfg.my_database_id
      cfg.my_proc_pid = true
  · rw [plansUpsert_found cfg q ts rows hlook]
    exact hlook
  · have hlook' : IndexLookup rows q.queryId q.generation cfg.my_database_id
        cfg.my_proc_pid = false := by simpa using hlook
    have hnew : IndexLookup (rows ++
        [{ query_id := q.queryId, generation := q.generation
           db_id := cfg.my_database_id, pid := cfg.my_proc_pid
           timestamp := ts, features_text := q.serialized_plan }])
        q.queryId q.generation cfg.my_database_id cfg.my_proc_pid = true := by
      simp [IndexLookup]
    simpa [plansUpsert, hp, hlook'] using hnew

/-- C6: the plans table is an idempotent upsert on
`(query_id, generation, db_id, pid)`: `qss_ExecutorEnd` preserves
uniqueness of the plans rows on that key; when the B-tree existence check
already finds the key, it inserts no second plans row (the table is left
exactly as it was); and whenever the upsert step has run, the key is
present — so a second execution for the same key finds it and does not
duplicate the row. -/
theorem C6_plans_upsert_idempotent (cfg : QSSConfig) (s : QSSState)
    (q : QueryDesc) :
    (plansUnique s.plans → plansUnique (qss_ExecutorEnd cfg s q).plans) ∧
    (IndexLookup s.plans q.queryId q.generation cfg.my_database_id
        cfg.my_proc_pid = true →
      (qss_ExecutorEnd cfg s q).plans = s.plans) ∧
    (cfg.plans_table_present = true →
      ∀ (ts : Int) (rows : List PlansRow),
        IndexLookup (plansUpsert cfg q ts rows) q.queryId q.generation
          cfg.my_database_id cfg.my_proc_pid = true) := by
  refine ⟨?_, ?_, fun hp ts rows => IndexLookup_plansUpsert cfg q ts rows hp⟩
  · intro h
    rcases qss_ExecutorEnd_cases cfg s q with hc | hc | ⟨fr, rest, htop, hc⟩ <;>
      rw [hc]
    · exact h
    · exact h
    · exact plansUpsert_unique cfg q fr.statement_ts s.plans h
  · intro hlook
    rcases qss_ExecutorEnd_cases cfg s q with hc | hc | ⟨fr, rest, htop, hc⟩ <;>
      rw [hc]
    exact plansUpsert_found cfg q fr.statement_ts s.plans hlook

/-- C10: with capture enabled and the gates otherwise passing, a statement
whose query id is 0 (or a backend with no frame pushed) persists nothing:
`qss_ExecutorEnd` writes no plans row and no stats row, yet still pops the
frame when one exists, restores the memory context, invokes the chained
previous (or standard) ExecutorEnd, and decrements the nesting level. -/
theorem C10_zero_queryid_end (cfg : QSSConfig) (s : QSSState) (q : QueryDesc)
    (hcap : cfg.qss_capture_enabled = true)
    (hsql : q.isSQLFunction = false)
    (hgen : 0 ≤ q.generation)
    (hnest : cfg.tscout_capture_nested = true ∨ s.nesting_level = 1)
    (hskip : q.queryId = 0 ∨ s.top = []) :
    qss_ExecutorEnd cfg s q =
      { s with top := s.top.tail
               hook_end_calls := s.hook_end_calls + 1
               nesting_level := s.nesting_level - 1 } := by
  have h2 : ¬q.generation < 0 := not_lt.2 hgen
  rcases hnest with h4a | h4n
  · rcases hskip with h0 | htop
    · cases ht : s.top with
      | nil => simp [qss_ExecutorEnd, hcap, hsql, h2, h4a, ht, h0]
      | cons fr rest => simp [qss_ExecutorEnd, hcap, hsql, h2, h4a, ht, h0]
    · simp [qss_ExecutorEnd, hcap, hsql, h2, h4a, htop]
  · rcases hskip with h0 | htop
    · cases ht : s.top with
      | nil => simp [qss_ExecutorEnd, hcap, hsql, h2, h4n, ht, h0]
      | cons fr rest => simp [qss_ExecutorEnd, hcap, hsql, h2, h4n, ht, h0]
    · simp [qss_ExecutorEnd, hcap, hsql, h2, h4n, htop]

/-- A workload built from executor invocations (each wrapping its nested
work), sequential composition, and `AllocQSSInstrumentation` requests. -/
inductive ExecAction where
  | skip
  | seq (a b : ExecAction)
  | invoke (q : QueryDesc) (body : ExecAction)
  | allocInstr
deriving DecidableEq

/-- Run a workload, collecting every `AllocQSSInstrumentation` result.
An `invoke` brackets its body between the start hook and the end hook
(the end hook receives the `QueryDesc` as the start hook left it). -/
def runAction (cfg : QSSConfig) : QSSState → ExecAction →
    QSSState × List (Option QSSInstrumentation)
  | s, .skip => (s, [])
  | s, .seq a b =>
    let r1 := runAction cfg s a
    let r2 := runAction cfg r1.1 b
    (r2.1, r1.2 ++ r2.2)
  | s, .invoke q body =>
    let r := qss_ExecutorStart cfg s q
    let rb := runAction cfg r.1 body
    (qss_ExecutorEnd cfg rb.1 r.2, rb.2)
  | s, .allocInstr =>
    let r := AllocQSSInstrumentation cfg s
    (r.1, [r.2])

theorem qss_ExecutorStart_disabled (cfg : QSSConfig) (s : QSSState)
    (q : QueryDesc) (h : cfg.qss_capture_enabled = false) :
    qss_ExecutorStart cfg s q =
      ({ s with nesting_level := s.nesting_level + 1
                hook_start_calls := s.hook_start_calls + 1 }, q) := by
  simp [qss_ExecutorStart, h]

theorem qss_ExecutorEnd_disabled (cfg : QSSConfig) (s : QSSState)
    (q : QueryDesc) (h : cfg.qss_capture_enabled = false) :
    qss_ExecutorEnd cfg s q =
      { s with hook_end_calls := s.hook_end_calls + 1
               nesting_level := s.nesting_level - 1 } := by
  simp [qss_ExecutorEnd, h]

theorem AllocQSS_topEmpty (cfg : QSSConfig) (s : QSSState) (h : s.top = []) :
    AllocQSSInstrumentation cfg s = (s, none) := by
  unfold AllocQSSInstrumentation qss_AllocInstrumentation
  by_cases hc : cfg.qss_capture_exec_stats = true ∧ cfg.alloc_hook_present = true
  · simp [hc, h]
  · simp [hc]

/-- C9: when the master gate `qss_capture_enabled` is false, the pipeline
is a no-op for every workload: no frame is ever pushed (the stack stays
empty), no plans or stats row is written, no total-time timer is
attached, and every `AllocQSSInstrumentation` call returns null. -/
theorem C9_capture_disabled_noop (cfg : QSSConfig) (a : ExecAction) :
    ∀ s : QSSState, cfg.qss_capture_enabled = false → s.top = [] →
      (runAction cfg s a).1.top = [] ∧
      (runAction cfg s a).1.plans = s.plans ∧
      (runAction cfg s a).1.stats = s.stats ∧
      (runAction cfg s a).1.timers_alloc = s.timers_alloc ∧
      ∀ r ∈ (runAction cfg s a).2, r = none := by
  induction a with
  | skip =>
    intro s hcap htop
    exact ⟨htop, rfl, rfl, rfl, by simp [runAction]⟩
  | seq a b iha ihb =>
    intro s hcap htop
    have h1 := iha s hcap htop
    have h2 := ihb (runAction cfg s a).1 hcap h1.1
    simp only [runAction]
    refine ⟨h2.1, h2.2.1.trans h1.2.1, h2.2.2.1.trans h1.2.2.1,
      h2.2.2.2.1.trans h1.2.2.2.1, ?_⟩
    intro r hr
    rw [List.mem_append] at hr
    rcases hr with hr | hr
    · exact h1.2.2.2.2 r hr
    · exact h2.2.2.2.2 r hr
  | invoke q body ih =>
    intro s hcap htop
    have hs := qss_ExecutorStart_disabled cfg s q hcap
    have hstop : (qss_ExecutorStart cfg s q).1.top = [] := by
      rw [hs]
      exact htop
    have hb := ih (qss_ExecutorStart cfg s q).1 hcap hstop
    have he := qss_ExecutorEnd_disabled cfg
      (runAction cfg (qss_ExecutorStart cfg s q).1 body).1
      (qss_ExecutorStart cfg s q).2 hcap
    simp only [runAction]
    refine ⟨?_, ?_, ?_, ?_, ?_⟩
    · rw [he]
      exact hb.1
    · rw [he]
      exact hb.2.1.trans (by rw [hs])
    · rw [he]
      exact hb.2.2.1.trans (by rw [hs])
    · rw [he]
      exact hb.2.2.2.1.trans (by rw [hs])
    · exact hb.2.2.2.2
  | allocInstr =>
    intro s hcap htop
    have ha := AllocQSS_topEmpty cfg s htop
    simp only [runAction]
    rw [ha]
    exact ⟨htop, rfl, rfl, rfl, by simp⟩

/-! ## C8: the counter-block helper macros -/

/-- A generic `Instrumentation*` the helper macros may receive: either
foreign (non-QSS) instrumentation memory — of which only the leading
signature word matters to the helpers — or a QSS counter block. -/
inductive InstrBlock where
  | foreignInstr (signature : Nat)
  | qssBlock (b : QSSInstrumentation)
deriving DecidableEq

/-- The leading signature word the downcast check reads. -/
def instrSignatureWord : InstrBlock → Nat
  | .foreignInstr sig => sig
  | .qssBlock b => b.signature

/-- `IS_QSSINSTRUMENTATION(sig)`: the leading word equals 0xFACADE. -/
def IS_QSSINSTRUMENTATION (b : InstrBlock) : Bool :=
  instrSignatureWord b == QSSINSTRUMENTATION_SIGNATURE

/-- The write through the downcast,
`((struct QSSInstrumentation*)inst)->counter_i += val`.  It is only ever
reached behind the signature check; on foreign memory (which the check
rules out) we model it as the identity rather than the out-of-bounds
write the C code would perform. -/
def addToCounter (b : InstrBlock) (idx : Nat) (val : Int) : InstrBlock :=
  match b with
  | .foreignInstr sig => .foreignInstr sig
  | .qssBlock q =>
    .qssBlock { q with counters := q.counters.set idx (q.counters.getD idx 0 + val) }

/-- `QSSInstrumentAddCounter(node, i, val)`: null-safe, gated on
`qss_capture_exec_stats` and the signature check. -/
def QSSInstrumentAddCounter (capture_exec_stats : Bool)
    (node : Option InstrBlock) (idx : Nat) (val : Int) : Option InstrBlock :=
  match node with
  | none => none
  | some inst =>
    if capture_exec_stats && IS_QSSINSTRUMENTATION inst then
      some (addToCounter inst idx val)
    else some inst

/-- `ActiveQSSInstrumentAddCounter(i, val)`: as above, on the global
`ActiveQSSInstrumentation`. -/
def ActiveQSSInstrumentAddCounter (capture_exec_stats : Bool)
    (active : Option InstrBlock) (idx : Nat) (val : Int) : Option InstrBlock :=
  match active with
  | none => none
  | some inst =>
    if capture_exec_stats && IS_QSSINSTRUMENTATION inst then
      some (addToCounter inst idx val)
    else some inst

/-- `QSSInstrumentBeginTime(node)`: checks the gate and the signature but
only captures a clock reading into a macro-local variable — it never
writes the block. -/
def QSSInstrumentBeginTime (capture_exec_stats : Bool)
    (node : Option InstrBlock) : Option InstrBlock :=
  match node with
  | none => none
  | some inst =>
    if capture_exec_stats && IS_QSSINSTRUMENTATION inst then some inst
    else some inst

/-- `QSSInstrumentEndTimeMicrosec(node, i)`: adds the elapsed microseconds
to counter `i`, behind the same gate and signature check. -/
def QSSInstrumentEndTimeMicrosec (capture_exec_stats : Bool)
    (node : Option InstrBlock) (idx : Nat) (elapsed_us : Int) :
    Option InstrBlock :=
  match node with
  | none => none
  | some inst =>
    if capture_exec_stats && IS_QSSINSTRUMENTATION inst then
      some (addToCounter inst idx elapsed_us)
    else some inst

/-- C8: every helper that downcasts a generic instrumentation block to a
QSS counter block checks the signature word first; when the signature is
absent no helper performs any write — the block is returned untouched, so
foreign instrumentation memory is never written through the downcast
(and a null block is tolerated). -/
theorem C8_signature_guard (flag : Bool) (b : InstrBlock) (idx : Nat)
    (val : Int) (h : IS_QSSINSTRUMENTATION b = false) :
    QSSInstrumentAddCounter flag (some b) idx val = some b ∧
    ActiveQSSInstrumentAddCounter flag (some b) idx val = some b ∧
    QSSInstrumentBeginTime flag (some b) = some b ∧
    QSSInstrumentEndTimeMicrosec flag (some b) idx val = some b ∧
    QSSInstrumentAddCounter flag none idx val = none ∧
    QSSInstrumentBeginTime flag none = none := by
  simp [QSSInstrumentAddCounter, ActiveQSSInstrumentAddCounter,
    QSSInstrumentBeginTime, QSSInstrumentEndTimeMicrosec, h]

/-- Witness for `C8_signature_guard` on a foreign block whose leading
word is 0 (not the QSS signature), with the capture gate on. -/
theorem C8_signature_guard_witness :
    QSSInstrumentAddCounter true (some (InstrBlock.foreignInstr 0)) 3 7 =
      some (InstrBlock.foreignInstr 0) ∧
    ActiveQSSInstrumentAddCounter true (some (InstrBlock.foreignInstr 0)) 3 7 =
      some (InstrBlock.foreignInstr 0) ∧
    QSSInstrumentBeginTime true (some (InstrBlock.foreignInstr 0)) =
      some (InstrBlock.foreignInstr 0) ∧
    QSSInstrumentEndTimeMicrosec true (some (InstrBlock.foreignInstr 0)) 3 7 =
      some (InstrBlock.foreignInstr 0) ∧
    QSSInstrumentAddCounter true none 3 7 = none ∧
    QSSInstrumentBeginTime true none = none :=
  C8_signature_guard true (InstrBlock.foreignInstr 0) 3 7 (by decide)

/-! Concrete instances for the QSS witnesses. -/

/-- A configuration with capture on, both tables present. -/
def cfg6 : QSSConfig :=
  { qss_capture_enabled := true, qss_capture_exec_stats := false
    qss_capture_query_runtime := false, tscout_capture_nested := false
    alloc_hook_present := true, plans_table_present := true
    stats_table_present := true, my_database_id := 10, my_proc_pid := 20 }

/-- A plain outermost statement with query id 9, generation 1. -/
def q6 : QueryDesc :=
  { queryId := 9, generation := 1, isSQLFunction := false, hasTotaltime := false
    es_query_cxt := 3, stmt_start_ts := 100, planNodes := [], serialized_plan := 55 }

/-- The plans row the first execution of `q6` persists. -/
def row6 : PlansRow :=
  { query_id := 9, generation := 1, db_id := 10, pid := 20
    timestamp := 100, features_text := 55 }

/-- The backend state after the first execution: one frame, the plans row
already present. -/
def s6 : QSSState :=
  { top := [{ statement_ts := 100, plan_separate_instr_id := -4
              statement_instrs := [] }]
    nesting_level := 1, plans := [row6], stats := [], mem_ctx := 0
    timers_alloc := 0, hook_start_calls := 0, hook_end_calls := 0 }

/-- Witness for `C6_plans_upsert_idempotent`: the key `(9, 1, 10, 20)` is
already present, so a second `qss_ExecutorEnd` leaves the plans rows
exactly as they are (and unique), and the upsert always leaves the key
present. -/
theorem C6_plans_upsert_idempotent_witness :
    plansUnique (qss_ExecutorEnd cfg6 s6 q6).plans ∧
    (qss_ExecutorEnd cfg6 s6 q6).plans = s6.plans ∧
    IndexLookup (plansUpsert cfg6 q6 100 []) q6.queryId q6.generation
      cfg6.my_database_id cfg6.my_proc_pid = true :=
  ⟨(C6_plans_upsert_idempotent cfg6 s6 q6).1 (by simp [plansUnique, s6]),
   (C6_plans_upsert_idempotent cfg6 s6 q6).2.1 (by decide),
   (C6_plans_upsert_idempotent cfg6 s6 q6).2.2 rfl 100 []⟩

/-- `q6` with query id 0. -/
def q10 : QueryDesc :=
  { queryId := 0, generation := 1, isSQLFunction := false, hasTotaltime := false
    es_query_cxt := 3, stmt_start_ts := 100, planNodes := [], serialized_plan := 55 }

/-- Witness for `C10_zero_queryid_end` on the one-frame state `s6`. -/
theorem C10_zero_queryid_end_witness :
    qss_ExecutorEnd cfg6 s6 q10 =
      { s6 with top := s6.top.tail
                hook_end_calls := s6.hook_end_calls + 1
                nesting_level := s6.nesting_level - 1 } :=
  C10_zero_queryid_end cfg6 s6 q10 rfl rfl (by decide) (Or.inr rfl) (Or.inl rfl)

/-- A configuration with the master gate off but everything else armed. -/
def cfg9 : QSSConfig :=
  { qss_capture_enabled := false, qss_capture_exec_stats := true
    qss_capture_query_runtime := true, tscout_capture_nested := true
    alloc_hook_present := true, plans_table_present := true
    stats_table_present := true, my_database_id := 10, my_proc_pid := 20 }

/-- An idle backend. -/
def s9 : QSSState :=
  { top := [], nesting_level := 0, plans := [], stats := [], mem_ctx := 0
    timers_alloc := 0, hook_start_calls := 0, hook_end_calls := 0 }

/-- A workload: one statement containing an allocation request, then a
stray allocation request. -/
def acts9 : ExecAction :=
  ExecAction.seq (ExecAction.invoke q6 ExecAction.allocInstr) ExecAction.allocInstr

/-- Witness for `C9_capture_disabled_noop` on the workload `acts9`. -/
theorem C9_capture_disabled_noop_witness :
    (runAction cfg9 s9 acts9).1.top = [] ∧
    (runAction cfg9 s9 acts9).1.plans = s9.plans ∧
    (runAction cfg9 s9 acts9).1.stats = s9.stats ∧
    (runAction cfg9 s9 acts9).1.timers_alloc = s9.timers_alloc ∧
    (none : Option QSSInstrumentation) = none :=
  have h := C9_capture_disabled_noop cfg9 acts9 s9 rfl rfl
  ⟨h.1, h.2.1, h.2.2.1, h.2.2.2.1, h.2.2.2.2 none (by decide)⟩
